import Mathlib

/-!
# Hailo generation session: engine, protocol formatter and HTTP front end

A shallow embedding of `tools/hailo` (`hailo-engine.cpp`, `hailo-common.cpp`,
`hailo-server.cpp`, `hailo-cli.cpp`).

The HailoRT backend (`hailort::genai::LLM`, its generator and its completion
object) is an external library.  It is embedded as a deterministic machine
`Backend σ`: every API call takes the backend state and returns the call's
result together with the next state.  The `on_token` callback is embedded the
same way (`String → κ → Bool × κ`), so a callback may keep state of its own.

The read loop of `generate_streaming` is `while (true)`; the embedding runs it
for at most `fuel` rounds and reports `finish_reason = none` when the rounds
are used up before the loop has left.

Every backend call and every callback invocation is recorded, in program
order, in a list of `Event`s.  The list is an observation of the run; no
branch of the embedded code reads it.
-/

namespace Hailo

/-! ## Backend vocabulary -/

/-- The `hailo_status` codes that `hailo_status_to_string` names, and any
other code by its number. -/
inductive hailo_status
  | HAILO_SUCCESS
  | HAILO_INVALID_ARGUMENT
  | HAILO_OUT_OF_HOST_MEMORY
  | HAILO_TIMEOUT
  | HAILO_INSUFFICIENT_BUFFER
  | HAILO_INVALID_OPERATION
  | HAILO_NOT_FOUND
  | HAILO_INTERNAL_FAILURE
  | other (code : Nat)
  deriving DecidableEq, Repr

/-- The result of a HailoRT call returning `Expected<T>`: a value, or the
status of the failure. -/
inductive Expected (α : Type)
  | value (a : α)
  | failure (status : hailo_status)
  deriving DecidableEq, Repr

/-- The test `if (!exp)` on an `Expected<T>`. -/
def Expected.has_value {α : Type} : Expected α → Bool
  | .value _ => true
  | .failure _ => false

/-- The values of `LLMGeneratorCompletion::Status` the engine tests. -/
inductive Status
  | GENERATING
  | MAX_TOKENS_REACHED
  | LOGICAL_END_OF_GENERATION
  | ABORTED
  deriving DecidableEq, Repr

/-- A C++ `float` as far as the engine looks at it: NaN, an infinity, or the
finite number `m * 2 ^ e`.  Every finite IEEE-754 value has this form. -/
inductive float
  | nan
  | inf (neg : Bool)
  | finite (m : Int) (e : Int)
  deriving DecidableEq, Repr

/-- Order of two finite values `m1 * 2 ^ e1 < m2 * 2 ^ e2`, compared after
scaling both to the smaller exponent. -/
def float.finite_lt (m1 e1 m2 e2 : Int) : Bool :=
  decide (m1 * 2 ^ (e1 - min e1 e2).toNat < m2 * 2 ^ (e2 - min e1 e2).toNat)

/-- The comparison `a < b` of IEEE-754: false as soon as one side is NaN. -/
def float.lt : float → float → Bool
  | .nan, _ => false
  | _, .nan => false
  | .inf true, .inf true => false
  | .inf true, _ => true
  | .inf false, _ => false
  | .finite _ _, .inf neg => !neg
  | .finite m1 e1, .finite m2 e2 => float.finite_lt m1 e1 m2 e2

/-- The comparison `a > b`. -/
def float.gt (a b : float) : Bool := float.lt b a

/-- The literal `0.0f`. -/
def float.zero : float := .finite 0 0

/-- The literal `1.0f`. -/
def float.one : float := .finite 1 0

/-- The fields of `LLMGeneratorParams` that the engine sets. -/
structure LLMGeneratorParams where
  do_sample : Bool
  temperature : float
  top_p : float
  max_generated_tokens : Nat
  deriving DecidableEq, Repr

/-- One observed call: a backend operation with its result, a setter call on
the generator parameters, or an invocation of the callback with the value it
returned. -/
inductive Event
  | clear_context (status : hailo_status)
  | create_generator_params (r : Expected LLMGeneratorParams)
  | set_do_sample (b : Bool)
  | set_temperature (t : float)
  | set_top_p (p : float)
  | set_max_generated_tokens (n : Nat)
  | create_generator (params : LLMGeneratorParams) (r : Expected Unit)
  | write (messages_json : List String) (status : hailo_status)
  | generate (r : Expected Unit)
  | generation_status (status : Status)
  | read (r : Expected String)
  | abort
  | on_token (token : String) (ret : Bool)
  deriving DecidableEq, Repr

/-- The HailoRT operations the engine calls on the model handle, on the
generator and on the completion, over one backend state `σ`. -/
structure Backend (σ : Type) where
  clear_context : σ → hailo_status × σ
  create_generator_params : σ → Expected LLMGeneratorParams × σ
  create_generator : LLMGeneratorParams → σ → Expected Unit × σ
  write : List String → σ → hailo_status × σ
  generate : σ → Expected Unit × σ
  generation_status : σ → Status × σ
  read : σ → Expected String × σ
  abort : σ → hailo_status × σ

/-! ## Session engine (`hailo-engine.cpp`) -/

/-- The members of `HailoEngine`; a null `m_vdevice` or `m_llm` is `none`.
The mutex is not modelled: the embedding runs one call at a time. -/
structure HailoEngine (δ σ : Type) where
  m_vdevice : Option δ
  m_llm : Option σ
  m_model_name : String
  m_hef_path : String
  m_max_context : Nat

/-- The default-constructed engine. -/
def HailoEngine.new (δ σ : Type) : HailoEngine δ σ :=
  { m_vdevice := none, m_llm := none, m_model_name := "", m_hef_path := "",
    m_max_context := 0 }

/-- `HailoEngine::init`, with the results of `VDevice::create_shared`,
`LLM::create` and `max_context_capacity` supplied by the caller. -/
def HailoEngine.init {δ σ : Type} (e : HailoEngine δ σ) (hef_path model_name : String)
    (create_shared : Expected δ) (create : δ → String → Expected σ)
    (max_context_capacity : σ → Expected Nat) : Bool × HailoEngine δ σ :=
  let e1 := { e with m_hef_path := hef_path, m_model_name := model_name }
  match create_shared with
  | .failure _ => (false, e1)
  | .value vdevice =>
    let e2 := { e1 with m_vdevice := some vdevice }
    match create vdevice hef_path with
    | .failure _ => (false, e2)
    | .value llm =>
      let e3 := { e2 with m_llm := some llm }
      match max_context_capacity llm with
      | .value ctx => (true, { e3 with m_max_context := ctx })
      | .failure _ => (true, e3)

/-- `HailoEngine::shutdown`: both handles are reset. -/
def HailoEngine.shutdown {δ σ : Type} (e : HailoEngine δ σ) : HailoEngine δ σ :=
  { e with m_llm := none, m_vdevice := none }

/-- `HailoEngine::model_name`. -/
def HailoEngine.model_name {δ σ : Type} (e : HailoEngine δ σ) : String :=
  e.m_model_name

/-- What one run of the read loop leaves behind: the finish reason (`none`
while the loop is still running after the allotted rounds), the backend and
callback states, and the calls made. -/
structure LoopResult (σ κ : Type) where
  finish_reason : Option String
  backend : σ
  cb : κ
  trace : List Event

/-- The block "Configure sampling parameters" of `generate_streaming`: the
parameters after the setter calls, and the setter calls made. -/
def configure_sampling (params : LLMGeneratorParams) (temperature top_p : float)
    (max_tokens : Int) : LLMGeneratorParams × List Event :=
  let r1 : LLMGeneratorParams × List Event :=
    if float.gt temperature float.zero then
      ({ params with do_sample := true, temperature := temperature },
        [Event.set_do_sample true, Event.set_temperature temperature])
    else
      ({ params with do_sample := false }, [Event.set_do_sample false])
  let r2 : LLMGeneratorParams × List Event :=
    if float.gt top_p float.zero && float.lt top_p float.one then
      ({ r1.1 with top_p := top_p }, r1.2 ++ [Event.set_top_p top_p])
    else r1
  if max_tokens > 0 then
    ({ r2.1 with max_generated_tokens := (max_tokens % 2 ^ 32).toNat },
      r2.2 ++ [Event.set_max_generated_tokens (max_tokens % 2 ^ 32).toNat])
  else r2

/-- The "Token read loop" of `generate_streaming`, run for at most `fuel`
rounds.  `finish_reason` is the local variable of that name. -/
def pull_loop {σ κ : Type} (B : Backend σ) (on_token : String → κ → Bool × κ) :
    Nat → String → σ → κ → LoopResult σ κ
  | 0, _, s, k => ⟨none, s, k, []⟩
  | fuel + 1, finish_reason, s, k =>
    let status := (B.generation_status s).1
    let s1 := (B.generation_status s).2
    if status = Status.LOGICAL_END_OF_GENERATION then
      ⟨some "stop", s1, k, [Event.generation_status status]⟩
    else if status = Status.MAX_TOKENS_REACHED then
      ⟨some "length", s1, k, [Event.generation_status status]⟩
    else if status = Status.ABORTED then
      ⟨some "stop", s1, k, [Event.generation_status status]⟩
    else
      let s2 := (B.read s1).2
      match (B.read s1).1 with
      | .failure st =>
        ⟨some finish_reason, s2, k,
          [Event.generation_status status, Event.read (.failure st)]⟩
      | .value token =>
        let post_status := (B.generation_status s2).1
        let s3 := (B.generation_status s2).2
        if post_status ≠ Status.GENERATING then
          ⟨some (if post_status = Status.MAX_TOKENS_REACHED then "length" else "stop"),
            s3, k,
            [Event.generation_status status, Event.read (.value token),
              Event.generation_status post_status]⟩
        else
          let ret := (on_token token k).1
          let k1 := (on_token token k).2
          if !ret then
            ⟨some "stop", (B.abort s3).2, k1,
              [Event.generation_status status, Event.read (.value token),
                Event.generation_status post_status, Event.on_token token ret,
                Event.abort]⟩
          else
            let r := pull_loop B on_token fuel finish_reason s3 k1
            { r with trace :=
                [Event.generation_status status, Event.read (.value token),
                  Event.generation_status post_status, Event.on_token token ret]
                ++ r.trace }

/-- What a call of `generate_streaming` leaves behind: the returned finish
reason (`none` while the read loop is still running), the engine, the callback
state, and the calls made. -/
structure GenOutcome (δ σ κ : Type) where
  finish_reason : Option String
  engine : HailoEngine δ σ
  cb : κ
  trace : List Event

/-- `HailoEngine::generate_streaming`. -/
def HailoEngine.generate_streaming {δ σ κ : Type} (B : Backend σ) (e : HailoEngine δ σ)
    (fuel : Nat) (messages_json : List String) (on_token : String → κ → Bool × κ) (k : κ)
    (temperature top_p : float) (max_tokens : Int) : GenOutcome δ σ κ :=
  match e.m_llm with
  | none => ⟨some "stop", e, k, []⟩
  | some s =>
    let clear_status := (B.clear_context s).1
    let s1 := (B.clear_context s).2
    let t1 := [Event.clear_context clear_status]
    if clear_status ≠ hailo_status.HAILO_SUCCESS then
      ⟨some "stop", { e with m_llm := some s1 }, k, t1⟩
    else
      let s2 := (B.create_generator_params s1).2
      let t2 := t1 ++ [Event.create_generator_params (B.create_generator_params s1).1]
      match (B.create_generator_params s1).1 with
      | .failure _ => ⟨some "stop", { e with m_llm := some s2 }, k, t2⟩
      | .value params0 =>
        let params := (configure_sampling params0 temperature top_p max_tokens).1
        let t3 := t2 ++ (configure_sampling params0 temperature top_p max_tokens).2
        let s3 := (B.create_generator params s2).2
        let t4 := t3 ++ [Event.create_generator params (B.create_generator params s2).1]
        match (B.create_generator params s2).1 with
        | .failure _ => ⟨some "stop", { e with m_llm := some s3 }, k, t4⟩
        | .value _ =>
          let write_status := (B.write messages_json s3).1
          let s4 := (B.write messages_json s3).2
          let t5 := t4 ++ [Event.write messages_json write_status]
          if write_status ≠ hailo_status.HAILO_SUCCESS then
            ⟨some "stop", { e with m_llm := some s4 }, k, t5⟩
          else
            let s5 := (B.generate s4).2
            let t6 := t5 ++ [Event.generate (B.generate s4).1]
            match (B.generate s4).1 with
            | .failure _ => ⟨some "stop", { e with m_llm := some s5 }, k, t6⟩
            | .value _ =>
              let r := pull_loop B on_token fuel "stop" s5 k
              ⟨r.finish_reason, { e with m_llm := some r.backend }, r.cb, t6 ++ r.trace⟩

/-- `HailoEngine::generate`: the callback appends every token to
`full_response` and returns true. -/
def HailoEngine.generate {δ σ : Type} (B : Backend σ) (e : HailoEngine δ σ) (fuel : Nat)
    (messages_json : List String) (temperature top_p : float) (max_tokens : Int) :
    String × GenOutcome δ σ String :=
  let o := e.generate_streaming B fuel messages_json
    (fun token full_response => (true, full_response ++ token)) "" temperature top_p max_tokens
  (o.cb, o)

/-! ## Reading the calls of a run -/

/-- The tokens handed to the callback, in call order. -/
def delivered : List Event → List String
  | [] => []
  | Event.on_token token _ :: rest => token :: delivered rest
  | _ :: rest => delivered rest

/-- The values the callback returned, in call order. -/
def callback_returns : List Event → List Bool
  | [] => []
  | Event.on_token _ ret :: rest => ret :: callback_returns rest
  | _ :: rest => callback_returns rest

/-- The number of `abort` calls on the completion. -/
def abort_count : List Event → Nat
  | [] => 0
  | Event.abort :: rest => abort_count rest + 1
  | _ :: rest => abort_count rest

/-- Whether the event is a backend call that reported a failure. -/
def Event.is_failure : Event → Bool
  | .clear_context status => status ≠ hailo_status.HAILO_SUCCESS
  | .create_generator_params r => !r.has_value
  | .create_generator _ r => !r.has_value
  | .write _ status => status ≠ hailo_status.HAILO_SUCCESS
  | .generate r => !r.has_value
  | .read r => !r.has_value
  | _ => false

/-- Whether the event is a fragment read. -/
def Event.is_read : Event → Bool
  | .read _ => true
  | _ => false

/-- The finish reason a terminal status is mapped to: `"length"` for
`MAX_TOKENS_REACHED`, `"stop"` for the others. -/
def reason_of (st : Status) : String :=
  if st = Status.MAX_TOKENS_REACHED then "length" else "stop"

/-- Whether the run goes on after the event: a successful backend call, a
status `GENERATING`, or a callback that returned true. -/
def Event.goes_on : Event → Bool
  | .clear_context status => status = hailo_status.HAILO_SUCCESS
  | .create_generator_params r => r.has_value
  | .set_do_sample _ => true
  | .set_temperature _ => true
  | .set_top_p _ => true
  | .set_max_generated_tokens _ => true
  | .create_generator _ r => r.has_value
  | .write _ status => status = hailo_status.HAILO_SUCCESS
  | .generate r => r.has_value
  | .generation_status status => status = Status.GENERATING
  | .read r => r.has_value
  | .abort => false
  | .on_token _ ret => ret

/-- The ways a run can end, as the last events of its trace together with the
finish reason: still running, a terminal status, a failed backend call, or a
callback that returned false followed by the abort request. -/
def ends_with (finish_reason : Option String) (pre tail : List Event) : Prop :=
  (tail = [] ∧ finish_reason = none) ∨
  (∃ st, st ≠ Status.GENERATING ∧ tail = [Event.generation_status st] ∧
    finish_reason = some (reason_of st)) ∨
  (∃ ev, ev.is_failure = true ∧ tail = [ev] ∧ finish_reason = some "stop" ∧
    (ev.is_read = false → delivered pre = [])) ∨
  (∃ token, tail = [Event.on_token token false, Event.abort] ∧ finish_reason = some "stop")

/-! ## One round of the read loop, seen from the backend -/

/-- The status the loop reads at the top of a round that starts in backend
state `s`. -/
def Backend.pre_status {σ : Type} (B : Backend σ) (s : σ) : Status :=
  (B.generation_status s).1

/-- The result of the read of a round that starts in backend state `s`. -/
def Backend.read_result {σ : Type} (B : Backend σ) (s : σ) : Expected String :=
  (B.read (B.generation_status s).2).1

/-- The status the loop reads right after the read of a round that starts in
backend state `s`. -/
def Backend.post_status {σ : Type} (B : Backend σ) (s : σ) : Status :=
  (B.generation_status (B.read (B.generation_status s).2).2).1

/-- The backend state at the top of the next round, when the round that starts
in `s` forwards its fragment and the loop goes on. -/
def Backend.next_round {σ : Type} (B : Backend σ) (s : σ) : σ :=
  (B.generation_status (B.read (B.generation_status s).2).2).2

/-! ## JSON values (`json.hpp`) -/

/-- Modelled from the spec: `json.hpp` (nlohmann::json) is not among the
sources; the spec takes the JSON primitives as given.  The value kinds of
`nlohmann::json`.  An object is kept as its members in insertion order with
distinct keys; only lookup by key is used by the embedded code, and
serialisation is left to `JsonText.dump`. -/
inductive Json
  | null
  | boolean (b : Bool)
  | number_integer (i : Int)
  | number_unsigned (n : Nat)
  | number_float (d : float)
  | string (s : String)
  | array (elements : List Json)
  | object (members : List (String × Json))

/-- Modelled from the spec: `json.hpp` is not among the sources.  The
exception classes of `nlohmann::json`, all derived from `json::exception`,
with the library's numeric id. -/
inductive json_exception
  | parse_error (id : Nat)
  | type_error (id : Nat)
  | out_of_range (id : Nat)
  deriving DecidableEq, Repr

/-- Lookup of a key among the members of an object. -/
def lookup_member {α : Type} (key : String) : List (String × α) → Option α
  | [] => none
  | (k, v) :: rest => if k = key then some v else lookup_member key rest

/-- Insert-or-assign of a key among the members of an object. -/
def assign_member {α : Type} (key : String) (v : α) : List (String × α) → List (String × α)
  | [] => [(key, v)]
  | (k, v0) :: rest =>
    if k = key then (k, v) :: rest else (k, v0) :: assign_member key v rest

/-- Modelled from the spec: `json.hpp` is not among the sources.  An object
built from an initializer list of key/value pairs: a key that occurs again
keeps its first value. -/
def Json.of_pairs (pairs : List (String × Json)) : Json :=
  Json.object (pairs.foldl
    (fun acc kv => if (lookup_member kv.1 acc).isSome then acc else acc ++ [kv]) [])

/-- Modelled from the spec: `json.hpp` is not among the sources.  The member
of an object under `key`, if the value is an object that has it. -/
def Json.find (j : Json) (key : String) : Option Json :=
  match j with
  | .object members => lookup_member key members
  | _ => none

/-- Modelled from the spec: `json.hpp` is not among the sources.
`contains(key)`: false for a value that is not an object. -/
def Json.contains (j : Json) (key : String) : Bool :=
  (j.find key).isSome

/-- Modelled from the spec: `json.hpp` is not among the sources.
`is_array()`. -/
def Json.is_array : Json → Bool
  | .array _ => true
  | _ => false

/-- Modelled from the spec: `json.hpp` is not among the sources.  Assignment
`j[key] = v` on an object (a null value becomes an object first).  On any
other kind the library raises `type_error` 305; the embedded code assigns
only into objects it has just built, and the value is left as it is here. -/
def Json.set (j : Json) (key : String) (v : Json) : Json :=
  match j with
  | .object members => Json.object (assign_member key v members)
  | .null => Json.object [(key, v)]
  | other => other

/-- The elements a range-for visits in an array. -/
def Json.elements : Json → List Json
  | .array elements => elements
  | _ => []

/-- The conversions between number types that `get<float>()` and `get<int>()`
apply by `static_cast`; rounding to `float` and truncation of a `double` are
left to the platform. -/
structure NumConv where
  int_to_float : Int → float
  double_to_float : float → float
  double_to_int : float → Int

/-- Conversion to `int` of a 64-bit integer: the low 32 bits, read as signed. -/
def wrap_int32 (i : Int) : Int :=
  (i + 2 ^ 31) % 2 ^ 32 - 2 ^ 31

/-- Modelled from the spec: `json.hpp` is not among the sources.
`get<bool>()`: the value of a boolean, `type_error` 302 for any other kind. -/
def Json.get_bool : Json → Except json_exception Bool
  | .boolean b => .ok b
  | _ => .error (json_exception.type_error 302)

/-- Modelled from the spec: `json.hpp` is not among the sources.
`get<float>()`: a number or a boolean converted by `static_cast`,
`type_error` 302 for any other kind. -/
def Json.get_float (conv : NumConv) : Json → Except json_exception float
  | .number_unsigned n => .ok (conv.int_to_float n)
  | .number_integer i => .ok (conv.int_to_float i)
  | .number_float d => .ok (conv.double_to_float d)
  | .boolean b => .ok (if b then float.one else float.zero)
  | _ => .error (json_exception.type_error 302)

/-- Modelled from the spec: `json.hpp` is not among the sources.
`get<int>()`: a number or a boolean converted by `static_cast`,
`type_error` 302 for any other kind. -/
def Json.get_int (conv : NumConv) : Json → Except json_exception Int
  | .number_unsigned n => .ok (wrap_int32 n)
  | .number_integer i => .ok (wrap_int32 i)
  | .number_float d => .ok (conv.double_to_int d)
  | .boolean b => .ok (if b then 1 else 0)
  | _ => .error (json_exception.type_error 302)

/-- Modelled from the spec: `json.hpp` is not among the sources.
`value(key, default_value)` on an object: the converted member when the key is
present, the default when it is absent; `type_error` 306 on a value that is
not an object. -/
def Json.value {α : Type} (j : Json) (get : Json → Except json_exception α) (key : String)
    (default_value : α) : Except json_exception α :=
  match j with
  | .object members =>
    match lookup_member key members with
    | some v => get v
    | none => .ok default_value
  | _ => .error (json_exception.type_error 306)

/-- The conversions between JSON text and JSON values, `json::parse` and
`dump()`, supplied by the library. -/
structure JsonText where
  parse : String → Except json_exception Json
  dump : Json → String

/-! ## Protocol formatter (`hailo-common.cpp`) -/

/-- `format_chat_completion`; `epoch` is the clock reading the function
takes.  `prompt_tokens + completion_tokens` is a sum of two `int`. -/
def format_chat_completion (id model content finish_reason : String)
    (prompt_tokens completion_tokens : Int) (epoch : Int) : Json :=
  Json.of_pairs [
    ("id", Json.string id),
    ("object", Json.string "chat.completion"),
    ("created", Json.number_integer epoch),
    ("model", Json.string model),
    ("choices", Json.array [
      Json.of_pairs [
        ("index", Json.number_integer 0),
        ("message", Json.of_pairs [("role", Json.string "assistant"),
          ("content", Json.string content)]),
        ("finish_reason", Json.string finish_reason)]]),
    ("usage", Json.of_pairs [
      ("prompt_tokens", Json.number_integer prompt_tokens),
      ("completion_tokens", Json.number_integer completion_tokens),
      ("total_tokens", Json.number_integer (wrap_int32 (prompt_tokens + completion_tokens)))])]

/-- `format_chat_completion_chunk`; `epoch` is the clock reading the function
takes.  `nlohmann::json delta;` default-constructs the null value. -/
def format_chat_completion_chunk (id model delta_content finish_reason : String)
    (epoch : Int) : Json :=
  let delta : Json :=
    if delta_content ≠ "" then
      Json.of_pairs [("role", Json.string "assistant"), ("content", Json.string delta_content)]
    else Json.null
  let choice : Json := Json.of_pairs [("index", Json.number_integer 0), ("delta", delta)]
  let choice : Json :=
    if finish_reason ≠ "" then choice.set "finish_reason" (Json.string finish_reason)
    else choice.set "finish_reason" Json.null
  Json.of_pairs [
    ("id", Json.string id),
    ("object", Json.string "chat.completion.chunk"),
    ("created", Json.number_integer epoch),
    ("model", Json.string model),
    ("choices", Json.array [choice])]

/-- The choices of a completion object, as a list. -/
def choices (envelope : Json) : List Json :=
  match envelope.find "choices" with
  | some (Json.array elements) => elements
  | _ => []


/-! ## HTTP front end (`hailo-server.cpp`) -/

/-- The variables captured by the `chunked_provider` closure. -/
structure StreamJob where
  completion_id : String
  model : String
  messages_json : List String
  temperature : float
  top_p : float
  max_tokens : Int
  deriving DecidableEq, Repr

/-- The parts of `httplib::Response` the handler writes.  `status` is -1 until
a handler sets it; `content_provider` holds the content type and the closure
given to `set_chunked_content_provider`. -/
structure Response where
  status : Int
  headers : List (String × String)
  body : String
  content_type : String
  content_provider : Option (String × StreamJob)
  deriving DecidableEq, Repr

/-- A response as the server hands it to a handler. -/
def Response.fresh : Response :=
  { status := -1, headers := [], body := "", content_type := "", content_provider := none }

/-- `res.set_content(body, content_type)`. -/
def Response.set_content (res : Response) (body content_type : String) : Response :=
  { res with body := body, content_type := content_type }

/-- `res.set_header(key, value)`. -/
def Response.set_header (res : Response) (key value : String) : Response :=
  { res with headers := res.headers ++ [(key, value)] }

/-- How a call of a handler ends: it returned, a `json::exception` left it, or
its generation is still running after the allotted rounds. -/
inductive Handled (α : Type)
  | returned (a : α)
  | threw (ex : json_exception)
  | running

/-- What a returned handler leaves behind: the response, the global engine,
and the calls the engine made. -/
structure HandlerState (δ σ : Type) where
  res : Response
  engine : HailoEngine δ σ
  trace : List Event

/-- The literal `0.7f`. -/
def float.default_temperature : float := .finite 11744051 (-24)

/-- The literal `0.9f`. -/
def float.default_top_p : float := .finite 15099494 (-24)

/-- `handle_chat_completions`.  `completion_id` is the value
`generate_completion_id()` returns and `epoch` the clock reading of
`format_chat_completion`. -/
def handle_chat_completions {δ σ : Type} (J : JsonText) (conv : NumConv) (B : Backend σ)
    (fuel : Nat) (completion_id : String) (epoch : Int) (g_engine : HailoEngine δ σ)
    (req_body : String) (res : Response) : Handled (HandlerState δ σ) :=
  match J.parse req_body with
  | .error _ =>
    .returned ⟨({ res with status := 400 } : Response).set_content
      "\x7b\"error\":\x7b\"message\":\"Invalid JSON\",\"type\":\"invalid_request_error\"\x7d\x7d"
      "application/json", g_engine, []⟩
  | .ok body =>
    if !body.contains "messages" || !((body.find "messages").getD Json.null).is_array then
      .returned ⟨({ res with status := 400 } : Response).set_content
        "\x7b\"error\":\x7b\"message\":\"messages field is required and must be an array\",\"type\":\"invalid_request_error\"\x7d\x7d"
        "application/json", g_engine, []⟩
    else
      let messages_json := (((body.find "messages").getD Json.null).elements).map J.dump
      match body.value Json.get_bool "stream" false with
      | .error ex => .threw ex
      | .ok stream =>
      match body.value (Json.get_float conv) "temperature" float.default_temperature with
      | .error ex => .threw ex
      | .ok temperature =>
      match body.value (Json.get_float conv) "top_p" float.default_top_p with
      | .error ex => .threw ex
      | .ok top_p =>
      match body.value (Json.get_int conv) "max_tokens" (-1) with
      | .error ex => .threw ex
      | .ok max_tokens =>
        if stream then
          let model := g_engine.model_name
          let res1 := (res.set_header "Cache-Control" "no-cache").set_header
            "Connection" "keep-alive"
          .returned ⟨{ res1 with content_provider := some ("text/event-stream",
            ⟨completion_id, model, messages_json, temperature, top_p, max_tokens⟩) },
            g_engine, []⟩
        else
          let r := g_engine.generate B fuel messages_json temperature top_p max_tokens
          match r.2.finish_reason with
          | none => .running
          | some finish_reason =>
            let response := format_chat_completion completion_id r.2.engine.model_name
              r.1 finish_reason 0 0 epoch
            .returned ⟨res.set_content (J.dump response) "application/json",
              r.2.engine, r.2.trace⟩

/-- How the argument handling at the start of `main` ends: `main` goes on with
the values read, `main` returns an exit code after `print_usage`, or a
conversion raised (`std::stof` on a text that is no number). -/
inductive ArgsOutcome (α : Type)
  | parsed (a : α)
  | exit (code : Int)
  | threw
  deriving DecidableEq, Repr

/-- The locals that `main` of `hailo-cli.cpp` fills from `argv`. -/
structure CliArgs where
  hef_path : String
  model_name : String
  temperature : float
  top_p : float
  max_tokens : Int
  deriving DecidableEq, Repr

/-- The argument loop of `main` in `hailo-cli.cpp`, over `argv[1..]`.  An
option takes a value only when an argument follows it (`i + 1 < argc`).
`stof` is `std::stof` (`none` where it raises) and `atoi` is `std::atoi`. -/
def cli_arg_loop (stof : String → Option float) (atoi : String → Int) :
    List String → CliArgs → ArgsOutcome CliArgs
  | [], a => .parsed a
  | [arg], _ => if arg = "--help" ∨ arg = "-h" then .exit 0 else .exit 1
  | arg :: v :: rest, a =>
    if arg = "--model" then cli_arg_loop stof atoi rest { a with hef_path := v }
    else if arg = "--model-name" then cli_arg_loop stof atoi rest { a with model_name := v }
    else if arg = "--temperature" then
      match stof v with
      | none => .threw
      | some t => cli_arg_loop stof atoi rest { a with temperature := t }
    else if arg = "--top-p" then
      match stof v with
      | none => .threw
      | some t => cli_arg_loop stof atoi rest { a with top_p := t }
    else if arg = "--max-tokens" then
      cli_arg_loop stof atoi rest { a with max_tokens := atoi v }
    else if arg = "--help" ∨ arg = "-h" then .exit 0
    else .exit 1

/-- The argument handling of `main` in `hailo-cli.cpp`, up to
`setup_signal_handlers()`: the loop, the check that `--model` was given, and
the default model name, where `stem` is
`std::filesystem::path(hef_path).stem().string()`. -/
def cli_main_args (stof : String → Option float) (atoi : String → Int)
    (stem : String → String) (args : List String) : ArgsOutcome CliArgs :=
  match cli_arg_loop stof atoi args
      ⟨"", "", float.default_temperature, float.default_top_p, -1⟩ with
  | .parsed a =>
    if a.hef_path = "" then .exit 1
    else if a.model_name = "" then .parsed { a with model_name := stem a.hef_path }
    else .parsed a
  | .exit code => .exit code
  | .threw => .threw

/-- The locals that `main` of `hailo-server.cpp` fills from `argv`. -/
structure ServerArgs where
  hef_path : String
  model_name : String
  host : String
  port : Int
  deriving DecidableEq, Repr

/-- The argument loop of `main` in `hailo-server.cpp`, over `argv[1..]`. -/
def server_arg_loop (atoi : String → Int) : List String → ServerArgs → ArgsOutcome ServerArgs
  | [], a => .parsed a
  | [arg], _ => if arg = "--help" ∨ arg = "-h" then .exit 0 else .exit 1
  | arg :: v :: rest, a =>
    if arg = "--model" then server_arg_loop atoi rest { a with hef_path := v }
    else if arg = "--model-name" then server_arg_loop atoi rest { a with model_name := v }
    else if arg = "--host" then server_arg_loop atoi rest { a with host := v }
    else if arg = "--port" then server_arg_loop atoi rest { a with port := atoi v }
    else if arg = "--help" ∨ arg = "-h" then .exit 0
    else .exit 1

/-- The argument handling of `main` in `hailo-server.cpp`, up to
`setup_signal_handlers()`. -/
def server_main_args (atoi : String → Int) (stem : String → String) (args : List String) :
    ArgsOutcome ServerArgs :=
  match server_arg_loop atoi args ⟨"", "", "127.0.0.1", 8080⟩ with
  | .parsed a =>
    if a.hef_path = "" then .exit 1
    else if a.model_name = "" then .parsed { a with model_name := stem a.hef_path }
    else .parsed a
  | .exit code => .exit code
  | .threw => .threw

/-- The argument list that gives each option of `pairs` followed by its
value. -/
def option_args : List (String × String) → List String
  | [] => []
  | (opt, v) :: rest => opt :: v :: option_args rest

/-- The options that take a value in `hailo-cli.cpp`. -/
def cli_options : List String :=
  ["--model", "--model-name", "--temperature", "--top-p", "--max-tokens"]

/-- The options that take a value in `hailo-server.cpp`. -/
def server_options : List String :=
  ["--model", "--model-name", "--host", "--port"]

/-- Whether the option occurs among the pairs. -/
def has_option (opt : String) (pairs : List (String × String)) : Bool :=
  pairs.any (fun pr => pr.1 = opt)

/-- A `std::stof` for concrete runs: it converts the texts `0.5` and `1`. -/
def sample_stof (text : String) : Option float :=
  if text = "0.5" then some (float.finite 1 (-1))
  else if text = "1" then some float.one
  else none

/-- A `std::atoi` for concrete runs: it reads `16` and `9000`, and gives 0 on
other texts. -/
def sample_atoi (text : String) : Int :=
  if text = "16" then 16 else if text = "9000" then 9000 else 0

/-- A stem for concrete runs: the path up to its first dot. -/
def sample_stem (path : String) : String :=
  String.mk (path.toList.takeWhile (fun c => c ≠ '.'))

/-! ## Reads and the status after them -/

/-- The fragments read successfully, in read order, each with the status the
backend reported in the status query that follows its read. -/
def reads_with_status : List Event → List (String × Status)
  | [] => []
  | x :: rest =>
    match x, rest with
    | Event.read (Expected.value token), Event.generation_status st :: _ =>
      (token, st) :: reads_with_status rest
    | _, _ => reads_with_status rest

/-- The fragments whose read left the backend status at `GENERATING`, in read
order. -/
def forwarded_reads (trace : List Event) : List String :=
  ((reads_with_status trace).filter (fun r => decide (r.2 = Status.GENERATING))).map
    (fun r => r.1)

/-- Whether the event is one of the calls made before the read loop. -/
def Event.is_setup : Event → Bool
  | .clear_context _ => true
  | .create_generator_params _ => true
  | .set_do_sample _ => true
  | .set_temperature _ => true
  | .set_top_p _ => true
  | .set_max_generated_tokens _ => true
  | .create_generator _ _ => true
  | .write _ _ => true
  | .generate _ => true
  | _ => false

/-! ## Cancellation signal (`hailo-common.cpp`) and interactive front end (`hailo-cli.cpp`) -/

/-- State of the scripted backend: the fragments still to be read, the status
reported once they are used up, and whether abort was requested. -/
structure Script where
  pending : List (Expected String)
  final : Status
  aborted : Bool
  deriving DecidableEq, Repr

/-- A backend that succeeds in every setup call and then plays a `Script`:
each read takes the next scripted result; the status is `GENERATING` while
results are pending, and the scripted final status afterwards. -/
def scripted : Backend Script where
  clear_context s := (hailo_status.HAILO_SUCCESS, s)
  create_generator_params s :=
    (Expected.value ⟨false, float.one, float.one, 0⟩, s)
  create_generator _ s := (Expected.value (), s)
  write _ s := (hailo_status.HAILO_SUCCESS, s)
  generate s := (Expected.value (), s)
  generation_status s :=
    (if s.aborted then Status.ABORTED
      else if s.pending = [] then s.final else Status.GENERATING, s)
  read s :=
    match s.pending with
    | [] => (Expected.failure hailo_status.HAILO_INVALID_OPERATION, s)
    | r :: rest => (r, { s with pending := rest })
  abort s := (hailo_status.HAILO_SUCCESS, { s with aborted := true })


/-- The body `{"messages":[],"max_tokens":null}` as a JSON value. -/
def null_max_tokens_body : Json :=
  Json.object [("messages", Json.array []), ("max_tokens", Json.null)]

/-- Text conversions for concrete runs: the parser knows the text of
`null_max_tokens_body` and rejects every other text. -/
def sample_text : JsonText where
  parse text :=
    if text = "\x7b\"messages\":[],\"max_tokens\":null\x7d" then .ok null_max_tokens_body
    else .error (json_exception.parse_error 101)
  dump _ := "null"

/-- Number conversions for concrete runs. -/
def sample_conv : NumConv where
  int_to_float i := float.finite i 0
  double_to_float d := d
  double_to_int _ := 0

/-- State of the recording backend: a `Script`, and the parameters the last
`create_generator` call was given. -/
structure Recording where
  script : Script
  received : Option LLMGeneratorParams
  deriving DecidableEq, Repr

/-- A backend for concrete runs that plays a `Script` as `scripted` does, whose
`create_generator_params` returns parameters with `top_p = 0.5`, and which
keeps the parameters handed to `create_generator`. -/
def recording : Backend Recording where
  clear_context s := (hailo_status.HAILO_SUCCESS, s)
  create_generator_params s :=
    (Expected.value ⟨false, float.one, float.finite 1 (-1), 0⟩, s)
  create_generator params s := (Expected.value (), { s with received := some params })
  write _ s := (hailo_status.HAILO_SUCCESS, s)
  generate s := (Expected.value (), s)
  generation_status s := ((scripted.generation_status s.script).1, s)
  read s := ((scripted.read s.script).1, { s with script := (scripted.read s.script).2 })
  abort s := (hailo_status.HAILO_SUCCESS, { s with script := (scripted.abort s.script).2 })

theorem pull_loop_zero {σ κ : Type} (B : Backend σ) (on_token : String → κ → Bool × κ)
    (fr : String) (s : σ) (k : κ) :
    pull_loop B on_token 0 fr s k = ⟨none, s, k, []⟩ := rfl

theorem pull_loop_terminal {σ κ : Type} (B : Backend σ) (on_token : String → κ → Bool × κ)
    (fuel : Nat) (fr : String) (s : σ) (k : κ)
    (h : (B.generation_status s).1 ≠ Status.GENERATING) :
    pull_loop B on_token (fuel + 1) fr s k =
      ⟨some (if (B.generation_status s).1 = Status.MAX_TOKENS_REACHED then "length" else "stop"),
        (B.generation_status s).2, k, [Event.generation_status (B.generation_status s).1]⟩ := by
  rw [pull_loop]
  cases hs : (B.generation_status s).1 <;> simp_all

theorem pull_loop_read_failure {σ κ : Type} (B : Backend σ) (on_token : String → κ → Bool × κ)
    (fuel : Nat) (fr : String) (s : σ) (k : κ) (st : hailo_status)
    (h : (B.generation_status s).1 = Status.GENERATING)
    (hr : (B.read (B.generation_status s).2).1 = Expected.failure st) :
    pull_loop B on_token (fuel + 1) fr s k =
      ⟨some fr, (B.read (B.generation_status s).2).2, k,
        [Event.generation_status Status.GENERATING, Event.read (Expected.failure st)]⟩ := by
  rw [pull_loop]
  simp [h, hr]

theorem pull_loop_post_terminal {σ κ : Type} (B : Backend σ) (on_token : String → κ → Bool × κ)
    (fuel : Nat) (fr : String) (s : σ) (k : κ) (token : String)
    (h : (B.generation_status s).1 = Status.GENERATING)
    (hr : (B.read (B.generation_status s).2).1 = Expected.value token)
    (hp : (B.generation_status (B.read (B.generation_status s).2).2).1 ≠ Status.GENERATING) :
    pull_loop B on_token (fuel + 1) fr s k =
      ⟨some (if (B.generation_status (B.read (B.generation_status s).2).2).1
            = Status.MAX_TOKENS_REACHED then "length" else "stop"),
        (B.generation_status (B.read (B.generation_status s).2).2).2, k,
        [Event.generation_status Status.GENERATING, Event.read (Expected.value token),
          Event.generation_status (B.generation_status (B.read (B.generation_status s).2).2).1]⟩ := by
  rw [pull_loop]
  simp [h, hr, hp]

theorem pull_loop_callback_false {σ κ : Type} (B : Backend σ) (on_token : String → κ → Bool × κ)
    (fuel : Nat) (fr : String) (s : σ) (k : κ) (token : String)
    (h : (B.generation_status s).1 = Status.GENERATING)
    (hr : (B.read (B.generation_status s).2).1 = Expected.value token)
    (hp : (B.generation_status (B.read (B.generation_status s).2).2).1 = Status.GENERATING)
    (hc : (on_token token k).1 = false) :
    pull_loop B on_token (fuel + 1) fr s k =
      ⟨some "stop", (B.abort (B.generation_status (B.read (B.generation_status s).2).2).2).2,
        (on_token token k).2,
        [Event.generation_status Status.GENERATING, Event.read (Expected.value token),
          Event.generation_status Status.GENERATING, Event.on_token token false,
          Event.abort]⟩ := by
  rw [pull_loop]
  simp [h, hr, hp, hc]

theorem pull_loop_continue {σ κ : Type} (B : Backend σ) (on_token : String → κ → Bool × κ)
    (fuel : Nat) (fr : String) (s : σ) (k : κ) (token : String)
    (h : (B.generation_status s).1 = Status.GENERATING)
    (hr : (B.read (B.generation_status s).2).1 = Expected.value token)
    (hp : (B.generation_status (B.read (B.generation_status s).2).2).1 = Status.GENERATING)
    (hc : (on_token token k).1 = true) :
    pull_loop B on_token (fuel + 1) fr s k =
      { pull_loop B on_token fuel fr
          (B.generation_status (B.read (B.generation_status s).2).2).2 (on_token token k).2 with
        trace :=
          [Event.generation_status Status.GENERATING, Event.read (Expected.value token),
            Event.generation_status Status.GENERATING, Event.on_token token true]
          ++ (pull_loop B on_token fuel fr
            (B.generation_status (B.read (B.generation_status s).2).2).2
            (on_token token k).2).trace } := by
  rw [pull_loop]
  simp [h, hr, hp, hc]


/-- Shape of a run of the read loop: events after which the run goes on,
followed by one of the endings. -/
theorem pull_loop_shape {σ κ : Type} (B : Backend σ) (on_token : String → κ → Bool × κ)
    (fuel : Nat) (s : σ) (k : κ) :
    ∃ pre tail, (pull_loop B on_token fuel "stop" s k).trace = pre ++ tail ∧
      (∀ x ∈ pre, x.goes_on = true) ∧
      ((tail = [] ∧ (pull_loop B on_token fuel "stop" s k).finish_reason = none) ∨
       (∃ st, st ≠ Status.GENERATING ∧ tail = [Event.generation_status st] ∧
          (pull_loop B on_token fuel "stop" s k).finish_reason = some (reason_of st)) ∨
       (∃ st, tail = [Event.read (Expected.failure st)] ∧
          (pull_loop B on_token fuel "stop" s k).finish_reason = some "stop") ∨
       (∃ token, tail = [Event.on_token token false, Event.abort] ∧
          (pull_loop B on_token fuel "stop" s k).finish_reason = some "stop")) := by
  induction fuel generalizing s k with
  | zero => exact ⟨[], [], rfl, by simp, Or.inl ⟨rfl, rfl⟩⟩
  | succ fuel ih =>
    by_cases h : (B.generation_status s).1 = Status.GENERATING
    · cases hr : (B.read (B.generation_status s).2).1 with
      | failure st =>
        rw [pull_loop_read_failure B on_token fuel "stop" s k st h hr]
        exact ⟨[Event.generation_status Status.GENERATING], [Event.read (Expected.failure st)],
          rfl, by simp [Event.goes_on], Or.inr (Or.inr (Or.inl ⟨st, rfl, rfl⟩))⟩
      | value token =>
        by_cases hp : (B.generation_status (B.read (B.generation_status s).2).2).1
            = Status.GENERATING
        · cases hc : (on_token token k).1 with
          | false =>
            rw [pull_loop_callback_false B on_token fuel "stop" s k token h hr hp hc]
            exact ⟨[Event.generation_status Status.GENERATING, Event.read (Expected.value token),
                Event.generation_status Status.GENERATING],
              [Event.on_token token false, Event.abort], rfl,
              by simp [Event.goes_on, Expected.has_value],
              Or.inr (Or.inr (Or.inr ⟨token, rfl, rfl⟩))⟩
          | true =>
            rw [pull_loop_continue B on_token fuel "stop" s k token h hr hp hc]
            obtain ⟨pre, tail, ht, hpre, hend⟩ :=
              ih (B.generation_status (B.read (B.generation_status s).2).2).2 (on_token token k).2
            refine ⟨[Event.generation_status Status.GENERATING, Event.read (Expected.value token),
                Event.generation_status Status.GENERATING, Event.on_token token true] ++ pre,
              tail, ?_, ?_, ?_⟩
            · simp [ht]
            · intro x hx
              simp only [List.mem_append, List.mem_cons, List.mem_singleton] at hx
              rcases hx with (hx | hx | hx | hx | hx) | hx
              · subst hx; rfl
              · subst hx; rfl
              · subst hx; rfl
              · subst hx; rfl
              · cases hx
              · exact hpre x hx
            · exact hend
        · rw [pull_loop_post_terminal B on_token fuel "stop" s k token h hr hp]
          exact ⟨[Event.generation_status Status.GENERATING, Event.read (Expected.value token)],
            [Event.generation_status (B.generation_status (B.read (B.generation_status s).2).2).1],
            rfl, by simp [Event.goes_on, Expected.has_value],
            Or.inr (Or.inl ⟨_, hp, rfl, rfl⟩)⟩
    · rw [pull_loop_terminal B on_token fuel "stop" s k h]
      exact ⟨[], [Event.generation_status (B.generation_status s).1], rfl, by simp,
        Or.inr (Or.inl ⟨_, h, rfl, rfl⟩)⟩


theorem delivered_append (a b : List Event) : delivered (a ++ b) = delivered a ++ delivered b := by
  induction a with
  | nil => rfl
  | cons x xs ih => cases x <;> simp [delivered, ih]

theorem callback_returns_append (a b : List Event) :
    callback_returns (a ++ b) = callback_returns a ++ callback_returns b := by
  induction a with
  | nil => rfl
  | cons x xs ih => cases x <;> simp [callback_returns, ih]

theorem abort_count_append (a b : List Event) :
    abort_count (a ++ b) = abort_count a + abort_count b := by
  induction a with
  | nil => simp [abort_count]
  | cons x xs ih => cases x <;> simp [abort_count, ih]; omega

theorem configure_sampling_goes_on (params : LLMGeneratorParams) (temperature top_p : float)
    (max_tokens : Int) :
    ∀ x ∈ (configure_sampling params temperature top_p max_tokens).2,
      x.goes_on = true ∧ delivered [x] = [] := by
  unfold configure_sampling
  split_ifs <;> simp [Event.goes_on, delivered]

theorem delivered_eq_nil_of_forall (l : List Event) (h : ∀ x ∈ l, delivered [x] = []) :
    delivered l = [] := by
  induction l with
  | nil => rfl
  | cons x xs ih =>
    have hx := h x (by simp)
    have := ih (fun y hy => h y (by simp [hy]))
    have e : x :: xs = [x] ++ xs := rfl
    rw [e, delivered_append, hx, this]; rfl


theorem generate_streaming_not_ready {δ σ κ : Type} (B : Backend σ) (e : HailoEngine δ σ)
    (fuel : Nat) (messages_json : List String) (on_token : String → κ → Bool × κ) (k : κ)
    (temperature top_p : float) (max_tokens : Int) (h : e.m_llm = none) :
    e.generate_streaming B fuel messages_json on_token k temperature top_p max_tokens
      = ⟨some "stop", e, k, []⟩ := by
  unfold HailoEngine.generate_streaming
  simp [h]

/-- Shape of a call on a session holding a model handle: events after which
the run goes on, followed by one of the endings. -/
theorem generate_streaming_shape {δ σ κ : Type} (B : Backend σ) (e : HailoEngine δ σ)
    (fuel : Nat) (messages_json : List String) (on_token : String → κ → Bool × κ) (k : κ)
    (temperature top_p : float) (max_tokens : Int) (s : σ) (he : e.m_llm = some s) :
    ∃ pre tail,
      (e.generate_streaming B fuel messages_json on_token k temperature top_p max_tokens).trace
        = pre ++ tail ∧
      (∀ x ∈ pre, x.goes_on = true) ∧
      ends_with
        (e.generate_streaming B fuel messages_json on_token k temperature top_p
          max_tokens).finish_reason pre tail := by
  unfold HailoEngine.generate_streaming
  simp only [he]
  by_cases h1 : (B.clear_context s).1 = hailo_status.HAILO_SUCCESS
  · simp only [h1, ne_eq, not_true_eq_false, if_false]
    cases h2 : (B.create_generator_params (B.clear_context s).2).1 with
    | failure st =>
      refine ⟨[Event.clear_context hailo_status.HAILO_SUCCESS],
        [Event.create_generator_params (Expected.failure st)], by simp, by simp [Event.goes_on],
        Or.inr (Or.inr (Or.inl ⟨_, ?_, rfl, rfl, fun _ => rfl⟩))⟩
      simp [Event.is_failure, Expected.has_value]
    | value params0 =>
      simp only []
      have hcfg := configure_sampling_goes_on params0 temperature top_p max_tokens
      generalize hc : configure_sampling params0 temperature top_p max_tokens = cfg at hcfg
      cases h3 : (B.create_generator cfg.1 (B.create_generator_params (B.clear_context s).2).2).1 with
      | failure st =>
        refine ⟨[Event.clear_context hailo_status.HAILO_SUCCESS,
            Event.create_generator_params (Expected.value params0)] ++ cfg.2,
          [Event.create_generator cfg.1 (Expected.failure st)], by simp, ?_,
          Or.inr (Or.inr (Or.inl ⟨_, ?_, rfl, rfl, fun _ => ?_⟩))⟩
        · intro x hx
          simp only [List.mem_append, List.mem_cons, List.mem_singleton] at hx
          rcases hx with (hx | hx | hx) | hx
          · subst hx; rfl
          · subst hx; rfl
          · cases hx
          · exact (hcfg x hx).1
        · simp [Event.is_failure, Expected.has_value]
        · rw [delivered_append, delivered_eq_nil_of_forall cfg.2 (fun x hx => (hcfg x hx).2)]
          rfl
      | value u =>
        simp only []
        have hpre4 : ∀ x ∈ [Event.clear_context hailo_status.HAILO_SUCCESS,
            Event.create_generator_params (Expected.value params0)] ++ cfg.2 ++
            [Event.create_generator cfg.1 (Expected.value u)],
            x.goes_on = true ∧ delivered [x] = [] := by
          intro x hx
          simp only [List.mem_append, List.mem_cons, List.mem_singleton] at hx
          rcases hx with ((hx | hx | hx) | hx) | hx | hx
          · subst hx; exact ⟨rfl, rfl⟩
          · subst hx; exact ⟨rfl, rfl⟩
          · cases hx
          · exact hcfg x hx
          · subst hx; exact ⟨rfl, rfl⟩
          · cases hx
        generalize hp4 : [Event.clear_context hailo_status.HAILO_SUCCESS,
            Event.create_generator_params (Expected.value params0)] ++ cfg.2 ++
            [Event.create_generator cfg.1 (Expected.value u)] = pre4 at hpre4
        generalize (B.create_generator cfg.1
          (B.create_generator_params (B.clear_context s).2).2).2 = s3
        by_cases h4 : (B.write messages_json s3).1 = hailo_status.HAILO_SUCCESS
        · simp only [h4, ne_eq, not_true_eq_false, if_false]
          cases h5 : (B.generate (B.write messages_json s3).2).1 with
          | failure st =>
            refine ⟨pre4 ++ [Event.write messages_json hailo_status.HAILO_SUCCESS],
              [Event.generate (Expected.failure st)], by simp [← hp4], ?_,
              Or.inr (Or.inr (Or.inl ⟨_, ?_, rfl, rfl, fun _ => ?_⟩))⟩
            · intro x hx
              simp only [List.mem_append, List.mem_singleton] at hx
              rcases hx with hx | hx
              · exact (hpre4 x hx).1
              · subst hx; rfl
            · simp [Event.is_failure, Expected.has_value]
            · rw [delivered_append,
                delivered_eq_nil_of_forall pre4 (fun x hx => (hpre4 x hx).2)]
              rfl
          | value u5 =>
            simp only []
            obtain ⟨pre, tail, ht, hpre, hend⟩ :=
              pull_loop_shape B on_token fuel (B.generate (B.write messages_json s3).2).2 k
            refine ⟨pre4 ++ [Event.write messages_json hailo_status.HAILO_SUCCESS,
                Event.generate (Expected.value u5)] ++ pre, tail, by simp [ht, ← hp4], ?_, ?_⟩
            · intro x hx
              simp only [List.mem_append, List.mem_cons, List.mem_singleton] at hx
              rcases hx with (hx | hx | hx | hx) | hx
              · exact (hpre4 x hx).1
              · subst hx; rfl
              · subst hx; rfl
              · cases hx
              · exact hpre x hx
            · rcases hend with h | h | ⟨st, h, hf⟩ | h
              · exact Or.inl h
              · exact Or.inr (Or.inl h)
              · refine Or.inr (Or.inr (Or.inl ⟨_, ?_, h, hf, fun hr => ?_⟩))
                · simp [Event.is_failure, Expected.has_value]
                · simp [Event.is_read] at hr
              · exact Or.inr (Or.inr (Or.inr h))
        · refine ⟨pre4, [Event.write messages_json (B.write messages_json s3).1],
            by simp [h4, ← hp4], fun x hx => (hpre4 x hx).1,
            Or.inr (Or.inr (Or.inl ⟨_, ?_, rfl, by simp [h4], fun _ =>
              delivered_eq_nil_of_forall pre4 (fun x hx => (hpre4 x hx).2)⟩))⟩
          simp [Event.is_failure, h4]
  · refine ⟨[], [Event.clear_context (B.clear_context s).1], by simp [h1], by simp,
      Or.inr (Or.inr (Or.inl ⟨_, ?_, rfl, by simp [h1], fun _ => rfl⟩))⟩
    simp [Event.is_failure, h1]


theorem is_failure_of_goes_on (x : Event) (h : x.goes_on = true) : x.is_failure = false := by
  cases x <;> simp_all [Event.goes_on, Event.is_failure]

theorem callback_returns_of_goes_on (l : List Event) (h : ∀ x ∈ l, x.goes_on = true) :
    ∀ b ∈ callback_returns l, b = true := by
  induction l with
  | nil => intro b hb; simp [callback_returns] at hb
  | cons x xs ih =>
    rw [List.forall_mem_cons] at h
    have ih' := ih h.2
    cases x with
    | on_token token ret =>
      intro b hb
      simp only [callback_returns, List.mem_cons] at hb
      rcases hb with hb | hb
      · rw [hb]; exact h.1
      · exact ih' b hb
    | _ => exact ih'

theorem abort_count_of_goes_on (l : List Event) (h : ∀ x ∈ l, x.goes_on = true) :
    abort_count l = 0 := by
  induction l with
  | nil => rfl
  | cons x xs ih =>
    rw [List.forall_mem_cons] at h
    have ih' := ih h.2
    cases x with
    | abort => exact absurd h.1 (by simp [Event.goes_on])
    | _ => exact ih'

theorem delivered_length (l : List Event) :
    (delivered l).length = (callback_returns l).length := by
  induction l with
  | nil => rfl
  | cons x xs ih => cases x <;> simp [delivered, callback_returns, ih]

theorem replicate_false_take (L k : Nat)
    (h : (List.replicate L true ++ [false]).take k = List.replicate (k - 1) true ++ [false]) :
    L = k - 1 := by
  by_cases hk : k ≤ L
  · exfalso
    rw [List.take_append_of_le_length (by simpa using hk)] at h
    have hmem : false ∈ List.take k (List.replicate L true) := by rw [h]; simp
    have := List.mem_of_mem_take hmem
    simp at this
  · have hlen : (List.replicate L true ++ [false]).length ≤ k := by simp; omega
    rw [List.take_of_length_le hlen] at h
    have := congrArg List.length h
    simp at this
    exact this

theorem pull_loop_reaches {σ κ : Type} (B : Backend σ) (on_token : String → κ → Bool × κ)
    (hcb : ∀ token c, (on_token token c).1 = true) (st : Status)
    (hst : st ≠ Status.GENERATING) :
    ∀ (n : Nat) (s : σ) (k : κ) (fuel : Nat), n < fuel →
      (∀ i, i < n → B.pre_status (B.next_round^[i] s) = Status.GENERATING ∧
        (B.read_result (B.next_round^[i] s)).has_value = true ∧
        B.post_status (B.next_round^[i] s) = Status.GENERATING) →
      (B.pre_status (B.next_round^[n] s) = st ∨
        (B.pre_status (B.next_round^[n] s) = Status.GENERATING ∧
          (B.read_result (B.next_round^[n] s)).has_value = true ∧
          B.post_status (B.next_round^[n] s) = st)) →
      (pull_loop B on_token fuel "stop" s k).finish_reason = some (reason_of st) := by
  intro n
  induction n with
  | zero =>
    intro s k fuel hfuel _ hend
    obtain ⟨fuel, rfl⟩ : ∃ f, fuel = f + 1 := ⟨fuel - 1, by omega⟩
    simp only [Function.iterate_zero, id_eq] at hend
    rcases hend with h | ⟨h, hr, hp⟩
    · rw [pull_loop_terminal B on_token fuel "stop" s k (by rw [Backend.pre_status] at h; rw [h]; exact hst)]
      rw [Backend.pre_status] at h
      simp [h, reason_of]
    · unfold Backend.pre_status at h
      unfold Backend.read_result at hr
      unfold Backend.post_status at hp
      cases hv : (B.read (B.generation_status s).2).1 with
      | failure x => simp [hv, Expected.has_value] at hr
      | value token =>
        rw [pull_loop_post_terminal B on_token fuel "stop" s k token h hv (by rw [hp]; exact hst)]
        simp [hp, reason_of]
  | succ n ih =>
    intro s k fuel hfuel hgo hend
    obtain ⟨fuel, rfl⟩ : ∃ f, fuel = f + 1 := ⟨fuel - 1, by omega⟩
    obtain ⟨h, hr, hp⟩ := hgo 0 (by omega)
    simp only [Function.iterate_zero, id_eq] at h hr hp
    unfold Backend.pre_status at h
    unfold Backend.read_result at hr
    unfold Backend.post_status at hp
    cases hv : (B.read (B.generation_status s).2).1 with
    | failure x => simp [hv, Expected.has_value] at hr
    | value token =>
      rw [pull_loop_continue B on_token fuel "stop" s k token h hv hp (hcb token k)]
      have := ih (B.next_round s) (on_token token k).2 fuel (by omega)
        (fun i hi => by simpa [Function.iterate_succ_apply] using hgo (i + 1) (by omega))
        (by simpa [Function.iterate_succ_apply] using hend)
      simpa [Backend.next_round] using this


/-! ## Facts about a whole call -/

/-- C1: on a session holding a model handle, when the five setup calls succeed,
the callback returns true on every invocation, the first `n` rounds read a
fragment with status `GENERATING` before and after the read, and round `n`
observes the terminal status `st` either before its read or right after a
successful read, then with more than `n` rounds allowed `generate_streaming`
returns `"stop"` for `LOGICAL_END_OF_GENERATION` and `ABORTED` and `"length"`
for `MAX_TOKENS_REACHED`. -/
theorem generate_streaming_finish_reason_of_status {δ σ κ : Type} (B : Backend σ)
    (e : HailoEngine δ σ) (s s1 s2 s3 s4 s5 : σ) (params0 : LLMGeneratorParams)
    (messages_json : List String) (on_token : String → κ → Bool × κ) (k : κ)
    (temperature top_p : float) (max_tokens : Int)
    (he : e.m_llm = some s)
    (h1 : B.clear_context s = (hailo_status.HAILO_SUCCESS, s1))
    (h2 : B.create_generator_params s1 = (Expected.value params0, s2))
    (h3 : B.create_generator (configure_sampling params0 temperature top_p max_tokens).1 s2
      = (Expected.value (), s3))
    (h4 : B.write messages_json s3 = (hailo_status.HAILO_SUCCESS, s4))
    (h5 : B.generate s4 = (Expected.value (), s5))
    (hcb : ∀ token c, (on_token token c).1 = true)
    (n : Nat) (st : Status) (hst : st ≠ Status.GENERATING)
    (hgo : ∀ i, i < n → B.pre_status (B.next_round^[i] s5) = Status.GENERATING ∧
      (B.read_result (B.next_round^[i] s5)).has_value = true ∧
      B.post_status (B.next_round^[i] s5) = Status.GENERATING)
    (hend : B.pre_status (B.next_round^[n] s5) = st ∨
      (B.pre_status (B.next_round^[n] s5) = Status.GENERATING ∧
        (B.read_result (B.next_round^[n] s5)).has_value = true ∧
        B.post_status (B.next_round^[n] s5) = st))
    (fuel : Nat) (hfuel : n < fuel) :
    (st = Status.LOGICAL_END_OF_GENERATION ∨ st = Status.ABORTED →
      (e.generate_streaming B fuel messages_json on_token k temperature top_p
        max_tokens).finish_reason = some "stop") ∧
    (st = Status.MAX_TOKENS_REACHED →
      (e.generate_streaming B fuel messages_json on_token k temperature top_p
        max_tokens).finish_reason = some "length") := by
  have hloop := pull_loop_reaches B on_token hcb st hst n s5 k fuel hfuel hgo hend
  have hfr : (e.generate_streaming B fuel messages_json on_token k temperature top_p
      max_tokens).finish_reason = some (reason_of st) := by
    unfold HailoEngine.generate_streaming
    simp only [he, h1, h2, h3, h4, h5, ne_eq, not_true_eq_false, if_false]
    exact hloop
  refine ⟨fun h => ?_, fun h => ?_⟩
  · rw [hfr]; rcases h with h | h <;> simp [h, reason_of]
  · rw [hfr]; simp [h, reason_of]

/-- C1 at a concrete run: two fragments are forwarded, the third read moves the
status to `MAX_TOKENS_REACHED`. -/
theorem generate_streaming_finish_reason_of_status_witness :
    (({ HailoEngine.new Unit Script with
          m_llm := some ⟨[.value "a", .value "b", .value "c"],
            Status.MAX_TOKENS_REACHED, false⟩ } : HailoEngine Unit Script).generate_streaming
        scripted 3 ["hi"] (fun _ (c : Nat) => (true, c + 1)) 0 float.one float.one
        3).finish_reason = some "length" :=
  (generate_streaming_finish_reason_of_status scripted _
    ⟨[.value "a", .value "b", .value "c"], Status.MAX_TOKENS_REACHED, false⟩ _ _ _ _ _
    ⟨false, float.one, float.one, 0⟩ ["hi"] (fun _ (c : Nat) => (true, c + 1)) 0
    float.one float.one 3 rfl rfl rfl rfl rfl rfl (fun _ _ => rfl) 2
    Status.MAX_TOKENS_REACHED (by decide) (by decide) (by decide) 3 (by decide)).2 rfl

/-- C2: when the first `k` values the callback returned are `k - 1` times true
and then false, the callback was invoked exactly `k` times, abort was requested
exactly once, the call returned `"stop"`, and the false return followed by the
abort request are the last two events of the run. -/
theorem generate_streaming_callback_false {δ σ κ : Type} (B : Backend σ) (e : HailoEngine δ σ)
    (fuel : Nat) (messages_json : List String) (on_token : String → κ → Bool × κ) (c : κ)
    (temperature top_p : float) (max_tokens : Int) (k : Nat)
    (hk : (callback_returns (e.generate_streaming B fuel messages_json on_token c temperature
        top_p max_tokens).trace).take k = List.replicate (k - 1) true ++ [false]) :
    callback_returns (e.generate_streaming B fuel messages_json on_token c temperature
        top_p max_tokens).trace = List.replicate (k - 1) true ++ [false] ∧
    (delivered (e.generate_streaming B fuel messages_json on_token c temperature
        top_p max_tokens).trace).length = k ∧
    abort_count (e.generate_streaming B fuel messages_json on_token c temperature
        top_p max_tokens).trace = 1 ∧
    (e.generate_streaming B fuel messages_json on_token c temperature
        top_p max_tokens).finish_reason = some "stop" ∧
    ∃ pre token, (e.generate_streaming B fuel messages_json on_token c temperature
        top_p max_tokens).trace = pre ++ [Event.on_token token false, Event.abort] := by
  have hfalse : false ∈ callback_returns (e.generate_streaming B fuel messages_json on_token c
      temperature top_p max_tokens).trace := by
    apply List.mem_of_mem_take (n := k)
    rw [hk]; simp
  have hk1 : 1 ≤ k := by
    rcases Nat.eq_zero_or_pos k with h0 | h0
    · subst h0; simp at hk
    · exact h0
  cases hm : e.m_llm with
  | none =>
    rw [generate_streaming_not_ready B e fuel messages_json on_token c temperature top_p
      max_tokens hm] at hfalse
    simp [callback_returns] at hfalse
  | some s =>
    obtain ⟨pre, tail, ht, hpre, hend⟩ := generate_streaming_shape B e fuel messages_json
      on_token c temperature top_p max_tokens s hm
    have hcp := callback_returns_of_goes_on pre hpre
    rw [ht, callback_returns_append] at hfalse hk
    have htail : false ∈ callback_returns tail := by
      rcases List.mem_append.1 hfalse with h | h
      · exact absurd (hcp false h) (by simp)
      · exact h
    rcases hend with ⟨h, _⟩ | ⟨st, _, h, _⟩ | ⟨ev, hf, h, _⟩ | ⟨token, h, hfr⟩
    · subst h; simp [callback_returns] at htail
    · subst h; simp [callback_returns] at htail
    · subst h; cases ev <;> simp [callback_returns, Event.is_failure] at htail hf
    · subst h
      have hrep : callback_returns pre = List.replicate (callback_returns pre).length true :=
        List.eq_replicate_iff.2 ⟨rfl, hcp⟩
      have hct : callback_returns [Event.on_token token false, Event.abort] = [false] := rfl
      rw [hct, hrep] at hk
      have hlen := replicate_false_take _ _ hk
      have hcr : callback_returns (pre ++ [Event.on_token token false, Event.abort])
          = List.replicate (k - 1) true ++ [false] := by
        rw [callback_returns_append, hct, hrep, hlen]
      refine ⟨by rw [ht, hcr], ?_, ?_, hfr, pre, token, ht⟩
      · rw [ht, delivered_length, hcr]; simp; omega
      · rw [ht, abort_count_append, abort_count_of_goes_on pre hpre]; rfl

/-- C2 at a concrete run: the callback accepts the first fragment and refuses
the second. -/
theorem generate_streaming_callback_false_witness :
    callback_returns (({ HailoEngine.new Unit Script with
        m_llm := some ⟨[.value "a", .value "b", .value "c"],
          Status.LOGICAL_END_OF_GENERATION, false⟩ } : HailoEngine Unit Script).generate_streaming
      scripted 5 ["hi"] (fun _ (c : Nat) => (decide (c < 1), c + 1)) 0 float.one float.one
      3).trace = List.replicate (2 - 1) true ++ [false] :=
  (generate_streaming_callback_false scripted _ 5 ["hi"]
    (fun _ (c : Nat) => (decide (c < 1), c + 1)) 0 float.one float.one 3 2 (by decide)).1

/-- C3: a backend call that reported a failure is the last event of the run and
the only failure in it; the call returned `"stop"`; nothing was delivered to the
callback after it; and when the failed call is not a fragment read, nothing was
delivered at all. -/
theorem generate_streaming_backend_failure {δ σ κ : Type} (B : Backend σ) (e : HailoEngine δ σ)
    (fuel : Nat) (messages_json : List String) (on_token : String → κ → Bool × κ) (c : κ)
    (temperature top_p : float) (max_tokens : Int) (ev : Event)
    (hev : ev ∈ (e.generate_streaming B fuel messages_json on_token c temperature top_p
        max_tokens).trace)
    (hfail : ev.is_failure = true) :
    (e.generate_streaming B fuel messages_json on_token c temperature top_p
        max_tokens).finish_reason = some "stop" ∧
    (∃ pre, (e.generate_streaming B fuel messages_json on_token c temperature top_p
        max_tokens).trace = pre ++ [ev] ∧
      (∀ x ∈ pre, x.is_failure = false) ∧
      delivered (e.generate_streaming B fuel messages_json on_token c temperature top_p
        max_tokens).trace = delivered pre) ∧
    (ev.is_read = false →
      delivered (e.generate_streaming B fuel messages_json on_token c temperature top_p
        max_tokens).trace = []) := by
  cases hm : e.m_llm with
  | none =>
    rw [generate_streaming_not_ready B e fuel messages_json on_token c temperature top_p
      max_tokens hm] at hev
    simp at hev
  | some s =>
    obtain ⟨pre, tail, ht, hpre, hend⟩ := generate_streaming_shape B e fuel messages_json
      on_token c temperature top_p max_tokens s hm
    rw [ht] at hev ⊢
    have htail : ev ∈ tail := by
      rcases List.mem_append.1 hev with h | h
      · have := is_failure_of_goes_on ev (hpre ev h)
        rw [hfail] at this; cases this
      · exact h
    have hdel : ∀ x : Event, x.is_failure = true → delivered [x] = [] := by
      intro x hx; cases x <;> simp [delivered, Event.is_failure] at hx ⊢
    rcases hend with ⟨h, _⟩ | ⟨st, _, h, _⟩ | ⟨ev1, hf, h, hfr, hd⟩ | ⟨token, h, hfr⟩
    · subst h; simp at htail
    · subst h
      simp only [List.mem_singleton] at htail
      subst htail; simp [Event.is_failure] at hfail
    · subst h
      simp only [List.mem_singleton] at htail
      subst htail
      refine ⟨hfr, ⟨pre, rfl, fun x hx => is_failure_of_goes_on x (hpre x hx), ?_⟩, fun hr => ?_⟩
      · rw [delivered_append, hdel ev hfail]; simp
      · rw [delivered_append, hdel ev hfail, hd hr]; rfl
    · subst h
      simp only [List.mem_cons, List.mem_singleton] at htail
      rcases htail with h | h | h
      · subst h; simp [Event.is_failure] at hfail
      · subst h; simp [Event.is_failure] at hfail
      · cases h

/-- C3 at a concrete run: the second read fails after one fragment was
delivered. -/
theorem generate_streaming_backend_failure_witness :
    (({ HailoEngine.new Unit Script with
        m_llm := some ⟨[.value "a", .failure hailo_status.HAILO_TIMEOUT, .value "c"],
          Status.MAX_TOKENS_REACHED, false⟩ } : HailoEngine Unit Script).generate_streaming
      scripted 5 ["hi"] (fun _ (c : Nat) => (true, c + 1)) 0 float.one float.one
      3).finish_reason = some "stop" :=
  (generate_streaming_backend_failure scripted _ 5 ["hi"]
    (fun _ (c : Nat) => (true, c + 1)) 0 float.one float.one 3
    (Event.read (.failure hailo_status.HAILO_TIMEOUT)) (by decide) (by decide)).1


theorem shutdown_iterate_m_llm {δ σ : Type} (e0 : HailoEngine δ σ) (n : Nat) (hn : 0 < n) :
    (HailoEngine.shutdown^[n] e0).m_llm = none := by
  obtain ⟨m, rfl⟩ : ∃ m, n = m + 1 := ⟨n - 1, by omega⟩
  rw [Function.iterate_succ_apply']
  rfl

/-- C4: on a session that was never set up, or on which `shutdown` was applied
`n ≥ 1` times, `generate_streaming` returns `"stop"`, leaves the engine and the
callback state as they were, and makes no backend call and no callback
invocation; and `shutdown` applied twice equals `shutdown` applied once. -/
theorem generate_streaming_without_session {δ σ κ : Type} (B : Backend σ)
    (e e0 : HailoEngine δ σ) (n : Nat)
    (h : e = HailoEngine.new δ σ ∨ (0 < n ∧ e = HailoEngine.shutdown^[n] e0))
    (fuel : Nat) (messages_json : List String) (on_token : String → κ → Bool × κ) (c : κ)
    (temperature top_p : float) (max_tokens : Int) :
    e0.shutdown.shutdown = e0.shutdown ∧
    (e.generate_streaming B fuel messages_json on_token c temperature top_p
      max_tokens).finish_reason = some "stop" ∧
    (e.generate_streaming B fuel messages_json on_token c temperature top_p
      max_tokens).trace = [] ∧
    (e.generate_streaming B fuel messages_json on_token c temperature top_p
      max_tokens).cb = c ∧
    (e.generate_streaming B fuel messages_json on_token c temperature top_p
      max_tokens).engine = e := by
  have hm : e.m_llm = none := by
    rcases h with h | ⟨hn, h⟩
    · rw [h]; rfl
    · rw [h]; exact shutdown_iterate_m_llm e0 n hn
  rw [generate_streaming_not_ready B e fuel messages_json on_token c temperature top_p
    max_tokens hm]
  exact ⟨rfl, rfl, rfl, rfl, rfl⟩

/-- C4 at a concrete session: a session holding a scripted backend, shut down
twice. -/
theorem generate_streaming_without_session_witness :
    ((HailoEngine.shutdown^[2] ({ HailoEngine.new Unit Script with
        m_vdevice := some (),
        m_llm := some ⟨[.value "a"], Status.LOGICAL_END_OF_GENERATION, false⟩ }
        : HailoEngine Unit Script)).generate_streaming
      scripted 5 ["hi"] (fun _ (c : Nat) => (true, c + 1)) 0 float.one float.one 3).trace = [] :=
  (generate_streaming_without_session scripted _
    ({ HailoEngine.new Unit Script with
        m_vdevice := some (),
        m_llm := some ⟨[.value "a"], Status.LOGICAL_END_OF_GENERATION, false⟩ }) 2
    (Or.inr ⟨by decide, rfl⟩) 5 ["hi"] (fun _ (c : Nat) => (true, c + 1)) 0
    float.one float.one 3).2.2.1

theorem configure_sampling_spec (params0 : LLMGeneratorParams) (temperature top_p : float)
    (max_tokens : Int) (hm : -2 ^ 31 ≤ max_tokens ∧ max_tokens < 2 ^ 31) :
    ((configure_sampling params0 temperature top_p max_tokens).1.do_sample = true ↔
      float.gt temperature float.zero = true) ∧
    (∀ b, Event.set_do_sample b ∈ (configure_sampling params0 temperature top_p max_tokens).2 ↔
      b = float.gt temperature float.zero) ∧
    (∀ x, Event.set_temperature x ∈ (configure_sampling params0 temperature top_p max_tokens).2 ↔
      (float.gt temperature float.zero = true ∧ x = temperature)) ∧
    ((configure_sampling params0 temperature top_p max_tokens).1.temperature =
      if float.gt temperature float.zero = true then temperature else params0.temperature) ∧
    (∀ x, Event.set_top_p x ∈ (configure_sampling params0 temperature top_p max_tokens).2 ↔
      (float.gt top_p float.zero = true ∧ float.lt top_p float.one = true ∧ x = top_p)) ∧
    ((configure_sampling params0 temperature top_p max_tokens).1.top_p =
      if float.gt top_p float.zero = true ∧ float.lt top_p float.one = true then top_p
      else params0.top_p) ∧
    (∀ n : Nat, Event.set_max_generated_tokens n ∈
        (configure_sampling params0 temperature top_p max_tokens).2 ↔
      (0 < max_tokens ∧ (n : Int) = max_tokens)) ∧
    (((configure_sampling params0 temperature top_p max_tokens).1.max_generated_tokens : Int) =
      if 0 < max_tokens then max_tokens else (params0.max_generated_tokens : Int)) := by
  have hmod : 0 < max_tokens → max_tokens % 2 ^ 32 = max_tokens := fun h =>
    Int.emod_eq_of_lt (by omega) (by omega)
  have hcast : ∀ n : Nat, 0 < max_tokens → (n = max_tokens.toNat ↔ (n : Int) = max_tokens) :=
    fun n h => by omega
  unfold configure_sampling
  by_cases ht : float.gt temperature float.zero = true <;>
  by_cases hp1 : float.gt top_p float.zero = true <;>
  by_cases hp2 : float.lt top_p float.one = true <;>
  by_cases hmx : 0 < max_tokens
  all_goals
    simp [ht, hp1, hp2, hmx, hmod, hcast]
  all_goals
    have h32 : max_tokens % 4294967296 = max_tokens := by omega
    rw [h32]
    exact ⟨fun n => by omega, sup_eq_left.2 hmx.le⟩

/-- C5, as amended: on a session holding a model handle whose `clear_context`
and `create_generator_params` succeed, with `max_tokens` in the range of
`int`, the setter calls made between `create_generator_params` and
`create_generator`, and the parameters `create_generator` is called with (the
logged result is the result of the backend call on these parameters, and the
run goes on from the state that call leaves), are such that: `do_sample` is
set to true iff `temperature > 0` and to false otherwise; the temperature is
set iff `temperature > 0`, to that temperature; `top_p` is set iff
`0 < top_p < 1`, to that value, and for every other `top_p` the generator is
created with the `top_p` that `create_generator_params` returned; the
generated-token cap is set iff `max_tokens > 0`, to `max_tokens`, and is
otherwise the one `create_generator_params` returned. -/
theorem generate_streaming_sampling_params {δ σ κ : Type} (B : Backend σ)
    (e : HailoEngine δ σ) (s s1 s2 : σ) (params0 : LLMGeneratorParams) (fuel : Nat)
    (messages_json : List String) (on_token : String → κ → Bool × κ) (c : κ)
    (temperature top_p : float) (max_tokens : Int)
    (he : e.m_llm = some s)
    (h1 : B.clear_context s = (hailo_status.HAILO_SUCCESS, s1))
    (h2 : B.create_generator_params s1 = (Expected.value params0, s2))
    (hm : -2 ^ 31 ≤ max_tokens ∧ max_tokens < 2 ^ 31) :
    ∃ (setters : List Event) (params : LLMGeneratorParams) (rest : List Event),
      (e.generate_streaming B fuel messages_json on_token c temperature top_p
        max_tokens).trace =
        [Event.clear_context hailo_status.HAILO_SUCCESS,
          Event.create_generator_params (Expected.value params0)] ++ setters ++
        [Event.create_generator params (B.create_generator params s2).1] ++ rest ∧
      (∀ st, (B.create_generator params s2).1 = Expected.failure st →
        rest = [] ∧
        (e.generate_streaming B fuel messages_json on_token c temperature top_p
          max_tokens).engine.m_llm = some (B.create_generator params s2).2 ∧
        (e.generate_streaming B fuel messages_json on_token c temperature top_p
          max_tokens).finish_reason = some "stop") ∧
      (∀ u, (B.create_generator params s2).1 = Expected.value u →
        ∃ rest1, rest = Event.write messages_json
          (B.write messages_json (B.create_generator params s2).2).1 :: rest1) ∧
      (params.do_sample = true ↔ float.gt temperature float.zero = true) ∧
      (∀ b, Event.set_do_sample b ∈ setters ↔ b = float.gt temperature float.zero) ∧
      (∀ x, Event.set_temperature x ∈ setters ↔
        (float.gt temperature float.zero = true ∧ x = temperature)) ∧
      (params.temperature =
        if float.gt temperature float.zero = true then temperature
        else params0.temperature) ∧
      (∀ x, Event.set_top_p x ∈ setters ↔
        (float.gt top_p float.zero = true ∧ float.lt top_p float.one = true ∧ x = top_p)) ∧
      (params.top_p =
        if float.gt top_p float.zero = true ∧ float.lt top_p float.one = true then top_p
        else params0.top_p) ∧
      (∀ n : Nat, Event.set_max_generated_tokens n ∈ setters ↔
        (0 < max_tokens ∧ (n : Int) = max_tokens)) ∧
      ((params.max_generated_tokens : Int) =
        if 0 < max_tokens then max_tokens else (params0.max_generated_tokens : Int)) := by
  generalize hP : (configure_sampling params0 temperature top_p max_tokens).1 = P
  have hspec := configure_sampling_spec params0 temperature top_p max_tokens hm
  rw [hP] at hspec
  cases h3 : (B.create_generator P s2).1 with
  | failure st =>
    refine ⟨(configure_sampling params0 temperature top_p max_tokens).2, P, [], ?_, ?_, ?_,
      hspec⟩
    · unfold HailoEngine.generate_streaming
      simp only [he, h1, h2, hP, h3, ne_eq, not_true_eq_false, if_false]
      simp
    · intro st' _
      unfold HailoEngine.generate_streaming
      simp only [he, h1, h2, hP, h3, ne_eq, not_true_eq_false, if_false]
      and_intros <;> first | rfl | trivial
    · intro u hu; rw [h3] at hu; cases hu
  | value u =>
    have htr : ∃ rest1, (e.generate_streaming B fuel messages_json on_token c temperature
        top_p max_tokens).trace =
        [Event.clear_context hailo_status.HAILO_SUCCESS,
          Event.create_generator_params (Expected.value params0)] ++
        (configure_sampling params0 temperature top_p max_tokens).2 ++
        [Event.create_generator P (Expected.value u)] ++
        (Event.write messages_json (B.write messages_json (B.create_generator P s2).2).1
          :: rest1) := by
      unfold HailoEngine.generate_streaming
      simp only [he, h1, h2, hP, h3, ne_eq, not_true_eq_false, if_false]
      split
      · exact ⟨[], by simp⟩
      · split
        · exact ⟨_, by simp; rfl⟩
        · exact ⟨_, by simp; rfl⟩
    obtain ⟨rest1, hrest⟩ := htr
    refine ⟨(configure_sampling params0 temperature top_p max_tokens).2, P, _,
      by rw [h3]; exact hrest, ?_, ?_, hspec⟩
    · intro st hst; rw [h3] at hst; cases hst
    · intro _ _; exact ⟨rest1, rfl⟩

/-- C5 as amended, at a concrete call with temperature 0.7f, top_p 0.9f and
max_tokens 16: the recording backend has been handed `top_p = 0.9f`. -/
theorem generate_streaming_sampling_params_witness :
    ((({ HailoEngine.new Unit Recording with
        m_llm := some ⟨⟨[.value "a"], Status.LOGICAL_END_OF_GENERATION, false⟩, none⟩ }
        : HailoEngine Unit Recording).generate_streaming
      recording 5 ["hi"] (fun _ (c : Nat) => (true, c + 1)) 0
      float.default_temperature float.default_top_p 16).engine.m_llm.bind
        (fun st => st.received)).map (fun p => p.top_p) = some float.default_top_p ∧
    ∃ (setters : List Event) (params : LLMGeneratorParams) (rest : List Event),
      (({ HailoEngine.new Unit Recording with
          m_llm := some ⟨⟨[.value "a"], Status.LOGICAL_END_OF_GENERATION, false⟩, none⟩ }
          : HailoEngine Unit Recording).generate_streaming
        recording 5 ["hi"] (fun _ (c : Nat) => (true, c + 1)) 0
        float.default_temperature float.default_top_p 16).trace =
        [Event.clear_context hailo_status.HAILO_SUCCESS,
          Event.create_generator_params
            (Expected.value ⟨false, float.one, float.finite 1 (-1), 0⟩)] ++
        setters ++
        [Event.create_generator params (recording.create_generator params
          ⟨⟨[.value "a"], Status.LOGICAL_END_OF_GENERATION, false⟩, none⟩).1] ++ rest ∧
      (params.top_p =
        if float.gt float.default_top_p float.zero = true ∧
            float.lt float.default_top_p float.one = true then float.default_top_p
        else float.finite 1 (-1)) := by
  refine ⟨by decide, ?_⟩
  obtain ⟨setters, params, rest, h, _, _, _, _, _, _, _, htp, _⟩ :=
    generate_streaming_sampling_params recording
      ({ HailoEngine.new Unit Recording with
          m_llm := some ⟨⟨[.value "a"], Status.LOGICAL_END_OF_GENERATION, false⟩, none⟩ })
      ⟨⟨[.value "a"], Status.LOGICAL_END_OF_GENERATION, false⟩, none⟩
      ⟨⟨[.value "a"], Status.LOGICAL_END_OF_GENERATION, false⟩, none⟩
      ⟨⟨[.value "a"], Status.LOGICAL_END_OF_GENERATION, false⟩, none⟩
      ⟨false, float.one, float.finite 1 (-1), 0⟩ 5 ["hi"] (fun _ (c : Nat) => (true, c + 1)) 0
      float.default_temperature float.default_top_p 16 rfl rfl rfl (by decide)
  exact ⟨setters, params, rest, h, htp⟩

/-- C5 as stated fails: with `top_p = 2.0` the engine sets no `top_p`, and the
recording backend, whose `create_generator_params` returns `top_p = 0.5`, is
handed `top_p = 0.5` by `create_generator`: a value inside (0,1), so nucleus
filtering stays applied. -/
theorem generate_streaming_keeps_backend_top_p :
    float.lt (float.finite 2 0) float.one = false ∧
    ((({ HailoEngine.new Unit Recording with
        m_llm := some ⟨⟨[.value "a"], Status.LOGICAL_END_OF_GENERATION, false⟩, none⟩ }
        : HailoEngine Unit Recording).generate_streaming
      recording 5 ["hi"] (fun _ (c : Nat) => (true, c + 1)) 0
      float.default_temperature (float.finite 2 0) 16).engine.m_llm.bind
        (fun st => st.received)).map (fun p => p.top_p) = some (float.finite 1 (-1)) ∧
    float.gt (float.finite 1 (-1)) float.zero = true ∧
    float.lt (float.finite 1 (-1)) float.one = true := by
  decide


/-! ## The claims on the protocol formatter and the HTTP front end -/

theorem format_chat_completion_chunk_null_delta (id model finish_reason : String)
    (epoch : Int) :
    ∃ choice, choices (format_chat_completion_chunk id model "" finish_reason epoch) = [choice] ∧
      choice.find "delta" = some Json.null ∧
      choice.find "delta" ≠ some (Json.object []) := by
  by_cases h : finish_reason = ""
  · exact ⟨_, by simp [choices, format_chat_completion_chunk, Json.of_pairs, Json.find,
      lookup_member, Json.set, assign_member, h]; rfl,
      by simp [Json.find, lookup_member], by simp [Json.find, lookup_member]⟩
  · exact ⟨_, by simp [choices, format_chat_completion_chunk, Json.of_pairs, Json.find,
      lookup_member, Json.set, assign_member, h]; rfl,
      by simp [Json.find, lookup_member], by simp [Json.find, lookup_member]⟩

theorem format_chat_completion_chunk_null_reason (id model delta_content finish_reason : String)
    (epoch : Int) :
    ∃ choice,
      choices (format_chat_completion_chunk id model delta_content finish_reason epoch)
        = [choice] ∧
      choice.find "finish_reason" ≠ none ∧
      (choice.find "finish_reason" = some Json.null ↔ finish_reason = "") ∧
      (finish_reason ≠ "" → choice.find "finish_reason" = some (Json.string finish_reason)) := by
  by_cases h : finish_reason = "" <;> by_cases hd : delta_content = ""
  all_goals
    exact ⟨_, by simp [choices, format_chat_completion_chunk, Json.of_pairs, Json.find,
      lookup_member, Json.set, assign_member, h, hd]; rfl,
      by simp [Json.find, lookup_member], by simp [Json.find, lookup_member, h],
      by simp [Json.find, lookup_member, h]⟩

/-- C6: with an empty `delta_content` the single choice of the chunk carries
`"delta"` as JSON null, which is not the empty object. -/
theorem format_chat_completion_chunk_empty_delta (id model finish_reason : String)
    (epoch : Int) :
    ∃ choice, choices (format_chat_completion_chunk id model "" finish_reason epoch) = [choice] ∧
      choice.find "delta" = some Json.null ∧
      choice.find "delta" ≠ some (Json.object []) := by
  exact format_chat_completion_chunk_null_delta id model finish_reason epoch

/-- C7: the chunk has exactly one choice; its `"finish_reason"` member is
present, is JSON null iff the `finish_reason` argument is the empty string,
and is otherwise the JSON string holding that argument. -/
theorem format_chat_completion_chunk_finish_reason (id model delta_content finish_reason : String)
    (epoch : Int) :
    ∃ choice,
      choices (format_chat_completion_chunk id model delta_content finish_reason epoch)
        = [choice] ∧
      choice.find "finish_reason" ≠ none ∧
      (choice.find "finish_reason" = some Json.null ↔ finish_reason = "") ∧
      (finish_reason ≠ "" → choice.find "finish_reason" = some (Json.string finish_reason)) := by
  exact format_chat_completion_chunk_null_reason id model delta_content finish_reason epoch


/-- C9: when the request body fails to parse, or parses to a value that has no
`"messages"` member or whose `"messages"` member is not an array, the handler
returns with status 400, content type `application/json` and the body
`{"error":{"message":<message>,"type":"invalid_request_error"}}`, where the
message is `Invalid JSON` for a parse failure; the rest of the response and the
engine are left as they were and the engine makes no call. -/
theorem handle_chat_completions_bad_request {δ σ : Type} (J : JsonText) (conv : NumConv)
    (B : Backend σ) (fuel : Nat) (completion_id : String) (epoch : Int)
    (g_engine : HailoEngine δ σ) (req_body : String) (res : Response)
    (h : (∃ ex, J.parse req_body = .error ex) ∨
      (∃ body, J.parse req_body = .ok body ∧
        (body.find "messages" = none ∨
          ∃ v, body.find "messages" = some v ∧ v.is_array = false))) :
    ∃ message : String,
      handle_chat_completions J conv B fuel completion_id epoch g_engine req_body res =
        Handled.returned
          ⟨{ res with
              status := 400,
              body := "\x7b\"error\":\x7b\"message\":\"" ++ message ++
                "\",\"type\":\"invalid_request_error\"\x7d\x7d",
              content_type := "application/json" },
            g_engine, []⟩ ∧
      (message = "Invalid JSON" ∨
        message = "messages field is required and must be an array") ∧
      ((∃ ex, J.parse req_body = .error ex) → message = "Invalid JSON") := by
  rcases h with ⟨ex, hp⟩ | ⟨body, hp, hm⟩
  · refine ⟨"Invalid JSON", ?_, Or.inl rfl, fun _ => rfl⟩
    unfold handle_chat_completions
    simp only [hp, Response.set_content]
    rfl
  · refine ⟨"messages field is required and must be an array", ?_, Or.inr rfl,
      fun ⟨ex, hex⟩ => ?_⟩
    · unfold handle_chat_completions
      have hc : (!body.contains "messages" ||
          !((body.find "messages").getD Json.null).is_array) = true := by
        rcases hm with hm | ⟨v, hv, ha⟩
        · simp [Json.contains, hm]
        · simp [Json.contains, hv, ha]
      simp only [hp, hc, if_true, Response.set_content]
      rfl
    · rw [hp] at hex; cases hex

/-- C9 at a concrete request: a body the parser rejects. -/
theorem handle_chat_completions_bad_request_witness :
    ∃ message : String,
      handle_chat_completions sample_text sample_conv scripted 5 "chatcmpl-1" 0
          (HailoEngine.new Unit Script) "not json" Response.fresh =
        Handled.returned
          ⟨{ Response.fresh with
              status := 400,
              body := "\x7b\"error\":\x7b\"message\":\"" ++ message ++
                "\",\"type\":\"invalid_request_error\"\x7d\x7d",
              content_type := "application/json" },
            HailoEngine.new Unit Script, []⟩ ∧
      (message = "Invalid JSON" ∨
        message = "messages field is required and must be an array") ∧
      ((∃ ex, sample_text.parse "not json" = .error ex) → message = "Invalid JSON") :=
  handle_chat_completions_bad_request sample_text sample_conv scripted 5 "chatcmpl-1" 0
    (HailoEngine.new Unit Script) "not json" Response.fresh
    (Or.inl ⟨json_exception.parse_error 101, rfl⟩)

/-- C10: on a body that parses to `{"messages":[],"max_tokens":null}` the
extraction `body.value("max_tokens", -1)` raises `type_error` 302 and the
exception leaves the handler: no response is produced by it. -/
theorem handle_chat_completions_null_max_tokens {δ σ : Type} (J : JsonText) (conv : NumConv)
    (B : Backend σ) (fuel : Nat) (completion_id : String) (epoch : Int)
    (g_engine : HailoEngine δ σ) (req_body : String) (res : Response)
    (h : J.parse req_body = .ok null_max_tokens_body) :
    handle_chat_completions J conv B fuel completion_id epoch g_engine req_body res =
      Handled.threw (json_exception.type_error 302) := by
  unfold handle_chat_completions
  simp [h, null_max_tokens_body, Json.contains, Json.find, lookup_member, Json.is_array,
    Json.value, Json.get_int]

/-- C10 at a concrete request. -/
theorem handle_chat_completions_null_max_tokens_witness :
    handle_chat_completions sample_text sample_conv scripted 5 "chatcmpl-1" 0
      (HailoEngine.new Unit Script) "\x7b\"messages\":[],\"max_tokens\":null\x7d"
      Response.fresh = Handled.threw (json_exception.type_error 302) :=
  handle_chat_completions_null_max_tokens sample_text sample_conv scripted 5 "chatcmpl-1" 0
    (HailoEngine.new Unit Script) "\x7b\"messages\":[],\"max_tokens\":null\x7d"
    Response.fresh rfl

/-! ## The claims on the command line and the interactive front end -/

theorem has_option_cons (opt : String) (pr : String × String) (rest : List (String × String)) :
    has_option opt (pr :: rest) = (decide (pr.1 = opt) || has_option opt rest) := by
  simp [has_option]

theorem cli_arg_loop_options (stof : String → Option float) (atoi : String → Int)
    (pairs : List (String × String)) (a : CliArgs)
    (hopt : ∀ pr ∈ pairs, pr.1 ∈ cli_options)
    (hnum : ∀ pr ∈ pairs, pr.1 = "--temperature" ∨ pr.1 = "--top-p" → (stof pr.2).isSome = true) :
    ∃ a', cli_arg_loop stof atoi (option_args pairs) a = ArgsOutcome.parsed a' ∧
      (a'.hef_path = a.hef_path ∨ ("--model", a'.hef_path) ∈ pairs) ∧
      (has_option "--model" pairs = true → ("--model", a'.hef_path) ∈ pairs) ∧
      (has_option "--temperature" pairs = false → a'.temperature = a.temperature) ∧
      (has_option "--top-p" pairs = false → a'.top_p = a.top_p) ∧
      (has_option "--max-tokens" pairs = false → a'.max_tokens = a.max_tokens) := by
  induction pairs generalizing a with
  | nil => exact ⟨a, rfl, Or.inl rfl, by simp [has_option], fun _ => rfl, fun _ => rfl, fun _ => rfl⟩
  | cons pr rest ih =>
    obtain ⟨opt, v⟩ := pr
    have hrest : ∀ pr ∈ rest, pr.1 ∈ cli_options := fun pr h => hopt pr (by simp [h])
    have hnrest : ∀ pr ∈ rest, pr.1 = "--temperature" ∨ pr.1 = "--top-p" →
        (stof pr.2).isSome = true := fun pr h => hnum pr (by simp [h])
    have ho := hopt (opt, v) (by simp)
    simp only [cli_options, List.mem_cons, List.mem_singleton, List.not_mem_nil, or_false] at ho
    rcases ho with h | h | h | h | h
    · subst h
      obtain ⟨a', hl, hp, hm, ht, htp, hmx⟩ := ih { a with hef_path := v } hrest hnrest
      refine ⟨a', by simp [option_args, cli_arg_loop, hl], ?_, ?_, ?_, ?_, ?_⟩
      · rcases hp with hp | hp
        · exact Or.inr (by simp [hp])
        · exact Or.inr (by simp [hp])
      · intro _
        rcases hp with hp | hp
        · simp [hp]
        · simp [hp]
      · intro h; exact ht (by simpa [has_option_cons] using h)
      · intro h; exact htp (by simpa [has_option_cons] using h)
      · intro h; exact hmx (by simpa [has_option_cons] using h)
    · subst h
      obtain ⟨a', hl, hp, hm, ht, htp, hmx⟩ := ih { a with model_name := v } hrest hnrest
      refine ⟨a', by simp [option_args, cli_arg_loop, hl], ?_, ?_, ?_, ?_, ?_⟩
      · rcases hp with hp | hp
        · exact Or.inl hp
        · exact Or.inr (by simp [hp])
      · intro h; exact List.mem_cons_of_mem _ (hm (by simpa [has_option_cons] using h))
      · intro h; exact ht (by simpa [has_option_cons] using h)
      · intro h; exact htp (by simpa [has_option_cons] using h)
      · intro h; exact hmx (by simpa [has_option_cons] using h)
    · subst h
      have hs := hnum ("--temperature", v) (by simp) (Or.inl rfl)
      obtain ⟨t, hst⟩ := Option.isSome_iff_exists.1 hs
      simp only at hst
      obtain ⟨a', hl, hp, hm, ht, htp, hmx⟩ := ih { a with temperature := t } hrest hnrest
      refine ⟨a', by simp [option_args, cli_arg_loop, hst, hl], ?_, ?_, ?_, ?_, ?_⟩
      · rcases hp with hp | hp
        · exact Or.inl hp
        · exact Or.inr (by simp [hp])
      · intro h; exact List.mem_cons_of_mem _ (hm (by simpa [has_option_cons] using h))
      · intro h; simp [has_option_cons] at h
      · intro h; exact htp (by simpa [has_option_cons] using h)
      · intro h; exact hmx (by simpa [has_option_cons] using h)
    · subst h
      have hs := hnum ("--top-p", v) (by simp) (Or.inr rfl)
      obtain ⟨t, hst⟩ := Option.isSome_iff_exists.1 hs
      simp only at hst
      obtain ⟨a', hl, hp, hm, ht, htp, hmx⟩ := ih { a with top_p := t } hrest hnrest
      refine ⟨a', by simp [option_args, cli_arg_loop, hst, hl], ?_, ?_, ?_, ?_, ?_⟩
      · rcases hp with hp | hp
        · exact Or.inl hp
        · exact Or.inr (by simp [hp])
      · intro h; exact List.mem_cons_of_mem _ (hm (by simpa [has_option_cons] using h))
      · intro h; exact ht (by simpa [has_option_cons] using h)
      · intro h; simp [has_option_cons] at h
      · intro h; exact hmx (by simpa [has_option_cons] using h)
    · subst h
      obtain ⟨a', hl, hp, hm, ht, htp, hmx⟩ := ih { a with max_tokens := atoi v } hrest hnrest
      refine ⟨a', by simp [option_args, cli_arg_loop, hl], ?_, ?_, ?_, ?_, ?_⟩
      · rcases hp with hp | hp
        · exact Or.inl hp
        · exact Or.inr (by simp [hp])
      · intro h; exact List.mem_cons_of_mem _ (hm (by simpa [has_option_cons] using h))
      · intro h; exact ht (by simpa [has_option_cons] using h)
      · intro h; exact htp (by simpa [has_option_cons] using h)
      · intro h; simp [has_option_cons] at h
theorem server_arg_loop_options (atoi : String → Int) (pairs : List (String × String))
    (tail : List String) (a : ServerArgs) (hopt : ∀ pr ∈ pairs, pr.1 ∈ server_options) :
    ∃ a', server_arg_loop atoi (option_args pairs ++ tail) a = server_arg_loop atoi tail a' ∧
      (a'.hef_path = a.hef_path ∨ ("--model", a'.hef_path) ∈ pairs) ∧
      (has_option "--model" pairs = true → ("--model", a'.hef_path) ∈ pairs) ∧
      (has_option "--host" pairs = false → a'.host = a.host) ∧
      (has_option "--port" pairs = false → a'.port = a.port) := by
  induction pairs generalizing a with
  | nil => exact ⟨a, rfl, Or.inl rfl, by simp [has_option], fun _ => rfl, fun _ => rfl⟩
  | cons pr rest ih =>
    obtain ⟨opt, v⟩ := pr
    have hrest : ∀ pr ∈ rest, pr.1 ∈ server_options := fun pr h => hopt pr (by simp [h])
    have ho := hopt (opt, v) (by simp)
    simp only [server_options, List.mem_cons, List.mem_singleton, List.not_mem_nil,
      or_false] at ho
    rcases ho with h | h | h | h
    · subst h
      obtain ⟨a', hl, hp, hm, hh, hpt⟩ := ih { a with hef_path := v } hrest
      refine ⟨a', by simp [option_args, server_arg_loop, hl], ?_, ?_, ?_, ?_⟩
      · rcases hp with hp | hp
        · exact Or.inr (by simp [hp])
        · exact Or.inr (by simp [hp])
      · intro _
        rcases hp with hp | hp
        · simp [hp]
        · simp [hp]
      · intro h; exact hh (by simpa [has_option_cons] using h)
      · intro h; exact hpt (by simpa [has_option_cons] using h)
    · subst h
      obtain ⟨a', hl, hp, hm, hh, hpt⟩ := ih { a with model_name := v } hrest
      refine ⟨a', by simp [option_args, server_arg_loop, hl], ?_, ?_, ?_, ?_⟩
      · rcases hp with hp | hp
        · exact Or.inl hp
        · exact Or.inr (by simp [hp])
      · intro h; exact List.mem_cons_of_mem _ (hm (by simpa [has_option_cons] using h))
      · intro h; exact hh (by simpa [has_option_cons] using h)
      · intro h; exact hpt (by simpa [has_option_cons] using h)
    · subst h
      obtain ⟨a', hl, hp, hm, hh, hpt⟩ := ih { a with host := v } hrest
      refine ⟨a', by simp [option_args, server_arg_loop, hl], ?_, ?_, ?_, ?_⟩
      · rcases hp with hp | hp
        · exact Or.inl hp
        · exact Or.inr (by simp [hp])
      · intro h; exact List.mem_cons_of_mem _ (hm (by simpa [has_option_cons] using h))
      · intro h; simp [has_option_cons] at h
      · intro h; exact hpt (by simpa [has_option_cons] using h)
    · subst h
      obtain ⟨a', hl, hp, hm, hh, hpt⟩ := ih { a with port := atoi v } hrest
      refine ⟨a', by simp [option_args, server_arg_loop, hl], ?_, ?_, ?_, ?_⟩
      · rcases hp with hp | hp
        · exact Or.inl hp
        · exact Or.inr (by simp [hp])
      · intro h; exact List.mem_cons_of_mem _ (hm (by simpa [has_option_cons] using h))
      · intro h; exact hh (by simpa [has_option_cons] using h)
      · intro h; simp [has_option_cons] at h

theorem server_arg_loop_sampling_option (atoi : String → Int) (opt : String)
    (rest : List String) (a : ServerArgs)
    (ho : opt ∈ ["--temperature", "--top-p", "--max-tokens"]) :
    server_arg_loop atoi (opt :: rest) a = ArgsOutcome.exit 1 := by
  simp only [List.mem_cons, List.mem_singleton, List.not_mem_nil, or_false] at ho
  cases rest with
  | nil => rcases ho with h | h | h <;> subst h <;> simp [server_arg_loop]
  | cons v rest => rcases ho with h | h | h <;> subst h <;> simp [server_arg_loop]

/-- C11, as amended: with a conversion `stof` that succeeds on the values of
`--temperature` and `--top-p`, the interactive binary accepts every argument
list of `--model` (non-empty path), `--model-name`, `--temperature`, `--top-p`
and `--max-tokens` options with values, and leaves temperature, top_p and
max_tokens at 0.7f, 0.9f and -1 when their option is omitted; the server binary
accepts every argument list of `--model` (non-empty path), `--model-name`,
`--host` and `--port` options with values, and leaves host and port at
`127.0.0.1` and 8080 when omitted; and the server binary answers such a list
followed by `--temperature`, `--top-p` or `--max-tokens` with exit code 1. -/
theorem main_args_accepted (stof : String → Option float) (atoi : String → Int)
    (stem : String → String) (cli server : List (String × String)) (opt : String)
    (rest : List String)
    (hc_opt : ∀ pr ∈ cli, pr.1 ∈ cli_options)
    (hc_model : has_option "--model" cli = true)
    (hc_path : ∀ pr ∈ cli, pr.1 = "--model" → pr.2 ≠ "")
    (hc_num : ∀ pr ∈ cli, pr.1 = "--temperature" ∨ pr.1 = "--top-p" →
      (stof pr.2).isSome = true)
    (hs_opt : ∀ pr ∈ server, pr.1 ∈ server_options)
    (hs_model : has_option "--model" server = true)
    (hs_path : ∀ pr ∈ server, pr.1 = "--model" → pr.2 ≠ "")
    (ho : opt ∈ ["--temperature", "--top-p", "--max-tokens"]) :
    (∃ a, cli_main_args stof atoi stem (option_args cli) = ArgsOutcome.parsed a ∧
      (has_option "--temperature" cli = false → a.temperature = float.default_temperature) ∧
      (has_option "--top-p" cli = false → a.top_p = float.default_top_p) ∧
      (has_option "--max-tokens" cli = false → a.max_tokens = -1)) ∧
    (∃ a, server_main_args atoi stem (option_args server) = ArgsOutcome.parsed a ∧
      (has_option "--host" server = false → a.host = "127.0.0.1") ∧
      (has_option "--port" server = false → a.port = 8080)) ∧
    server_main_args atoi stem (option_args server ++ opt :: rest) = ArgsOutcome.exit 1 := by
  refine ⟨?_, ?_, ?_⟩
  · obtain ⟨a', hl, _, hm, ht, htp, hmx⟩ := cli_arg_loop_options stof atoi cli
      ⟨"", "", float.default_temperature, float.default_top_p, -1⟩ hc_opt hc_num
    have hne : a'.hef_path ≠ "" := hc_path ("--model", a'.hef_path) (hm hc_model) rfl
    unfold cli_main_args
    rw [hl]
    by_cases hn : a'.model_name = ""
    · exact ⟨{ a' with model_name := stem a'.hef_path }, by simp [hne, hn], ht, htp, hmx⟩
    · exact ⟨a', by simp [hne, hn], ht, htp, hmx⟩
  · obtain ⟨a', hl, _, hm, hh, hpt⟩ := server_arg_loop_options atoi server []
      ⟨"", "", "127.0.0.1", 8080⟩ hs_opt
    have hne : a'.hef_path ≠ "" := hs_path ("--model", a'.hef_path) (hm hs_model) rfl
    unfold server_main_args
    rw [List.append_nil] at hl
    rw [hl, server_arg_loop]
    by_cases hn : a'.model_name = ""
    · exact ⟨{ a' with model_name := stem a'.hef_path }, by simp [hne, hn], hh, hpt⟩
    · exact ⟨a', by simp [hne, hn], hh, hpt⟩
  · obtain ⟨a', hl, _⟩ := server_arg_loop_options atoi server (opt :: rest)
      ⟨"", "", "127.0.0.1", 8080⟩ hs_opt
    unfold server_main_args
    rw [hl, server_arg_loop_sampling_option atoi opt rest a' ho]

/-- C11 as amended, at concrete argument lists. -/
theorem main_args_accepted_witness :
    (∃ a, cli_main_args sample_stof sample_atoi sample_stem
        (option_args [("--model", "m.hef"), ("--top-p", "0.5"), ("--max-tokens", "16")])
        = ArgsOutcome.parsed a ∧
      (has_option "--temperature"
          [("--model", "m.hef"), ("--top-p", "0.5"), ("--max-tokens", "16")] = false →
        a.temperature = float.default_temperature) ∧
      (has_option "--top-p"
          [("--model", "m.hef"), ("--top-p", "0.5"), ("--max-tokens", "16")] = false →
        a.top_p = float.default_top_p) ∧
      (has_option "--max-tokens"
          [("--model", "m.hef"), ("--top-p", "0.5"), ("--max-tokens", "16")] = false →
        a.max_tokens = -1)) :=
  (main_args_accepted sample_stof sample_atoi sample_stem
    [("--model", "m.hef"), ("--top-p", "0.5"), ("--max-tokens", "16")]
    [("--model", "m.hef"), ("--port", "9000")] "--temperature" ["0.5"]
    (by decide) (by decide) (by decide) (by decide) (by decide) (by decide) (by decide)
    (by decide)).1

/-- C11 as stated fails for the server binary: the argument list
`--model m.hef --temperature 0.5` ends in usage and exit code 1. -/
theorem server_main_args_rejects_temperature :
    option_args [("--model", "m.hef"), ("--temperature", "0.5")]
        = ["--model", "m.hef", "--temperature", "0.5"] ∧
      server_main_args sample_atoi sample_stem ["--model", "m.hef", "--temperature", "0.5"]
        = ArgsOutcome.exit 1 := by
  decide

theorem reads_with_status_cons_of_not_read (x : Event) (l : List Event)
    (h : x.is_read = false) : reads_with_status (x :: l) = reads_with_status l := by
  cases x <;> simp_all [reads_with_status, Event.is_read]

theorem reads_with_status_append_of_not_read (a l : List Event)
    (h : ∀ x ∈ a, x.is_read = false) :
    reads_with_status (a ++ l) = reads_with_status l := by
  induction a with
  | nil => rfl
  | cons x xs ih =>
    rw [List.forall_mem_cons] at h
    rw [List.cons_append, reads_with_status_cons_of_not_read x _ h.1, ih h.2]

theorem pull_loop_reads {σ κ : Type} (B : Backend σ) (on_token : String → κ → Bool × κ)
    (fuel : Nat) (s : σ) (k : κ) :
    delivered (pull_loop B on_token fuel "stop" s k).trace
      = forwarded_reads (pull_loop B on_token fuel "stop" s k).trace ∧
    ∀ token st, (token, st) ∈ reads_with_status (pull_loop B on_token fuel "stop" s k).trace →
      st ≠ Status.GENERATING →
      ∃ pre, (pull_loop B on_token fuel "stop" s k).trace
          = pre ++ [Event.read (Expected.value token), Event.generation_status st] ∧
        (∀ r ∈ reads_with_status pre, r.2 = Status.GENERATING) ∧
        delivered (pull_loop B on_token fuel "stop" s k).trace = delivered pre := by
  induction fuel generalizing s k with
  | zero =>
    refine ⟨rfl, fun token st h _ => ?_⟩
    rw [pull_loop_zero] at h
    exact absurd h (List.not_mem_nil _)
  | succ fuel ih =>
    by_cases h : (B.generation_status s).1 = Status.GENERATING
    · cases hr : (B.read (B.generation_status s).2).1 with
      | failure x =>
        rw [pull_loop_read_failure B on_token fuel "stop" s k x h hr]
        have hrw : reads_with_status [Event.generation_status Status.GENERATING,
            Event.read (Expected.failure x)] = [] := by simp [reads_with_status]
        refine ⟨by simp [delivered, forwarded_reads, hrw], fun token st hm _ => ?_⟩
        rw [hrw] at hm
        exact absurd hm (List.not_mem_nil _)
      | value token =>
        by_cases hp : (B.generation_status (B.read (B.generation_status s).2).2).1
            = Status.GENERATING
        · cases hc : (on_token token k).1 with
          | false =>
            rw [pull_loop_callback_false B on_token fuel "stop" s k token h hr hp hc]
            have hrw : reads_with_status [Event.generation_status Status.GENERATING,
                Event.read (Expected.value token), Event.generation_status Status.GENERATING,
                Event.on_token token false, Event.abort] = [(token, Status.GENERATING)] := by
              simp [reads_with_status]
            refine ⟨by simp [delivered, forwarded_reads, hrw], fun token' st hm hst => ?_⟩
            rw [hrw, List.mem_singleton, Prod.mk.injEq] at hm
            exact absurd hm.2 hst
          | true =>
            rw [pull_loop_continue B on_token fuel "stop" s k token h hr hp hc]
            obtain ⟨hd, hterm⟩ :=
              ih (B.generation_status (B.read (B.generation_status s).2).2).2 (on_token token k).2
            generalize (pull_loop B on_token fuel "stop"
              (B.generation_status (B.read (B.generation_status s).2).2).2
              (on_token token k).2).trace = tr at hd hterm ⊢
            have hrw : reads_with_status ([Event.generation_status Status.GENERATING,
                Event.read (Expected.value token), Event.generation_status Status.GENERATING,
                Event.on_token token true] ++ tr) = (token, Status.GENERATING) ::
                  reads_with_status tr := by
              simp [reads_with_status]
            have hdl : ∀ l, delivered ([Event.generation_status Status.GENERATING,
                Event.read (Expected.value token), Event.generation_status Status.GENERATING,
                Event.on_token token true] ++ l) = token :: delivered l := by
              intro l; simp [delivered]
            refine ⟨?_, fun token' st hm hst => ?_⟩
            · simp only [hdl, forwarded_reads, hrw] at hd ⊢
              simp [hd]
            · simp only [hrw, List.mem_cons, Prod.mk.injEq] at hm
              rcases hm with hm | hm
              · exact absurd hm.2 hst
              · obtain ⟨pre, hpre, hall, hdel⟩ := hterm token' st hm hst
                refine ⟨[Event.generation_status Status.GENERATING,
                    Event.read (Expected.value token),
                    Event.generation_status Status.GENERATING,
                    Event.on_token token true] ++ pre, ?_, ?_, ?_⟩
                · simp only [hpre]; simp
                · intro r hrm
                  have hrw2 : reads_with_status ([Event.generation_status Status.GENERATING,
                      Event.read (Expected.value token),
                      Event.generation_status Status.GENERATING,
                      Event.on_token token true] ++ pre) = (token, Status.GENERATING) ::
                        reads_with_status pre := by
                    simp [reads_with_status]
                  rw [hrw2, List.mem_cons] at hrm
                  rcases hrm with hrm | hrm
                  · rw [hrm]
                  · exact hall r hrm
                · simp only [hdl, hdel]
        · rw [pull_loop_post_terminal B on_token fuel "stop" s k token h hr hp]
          generalize (B.generation_status (B.read (B.generation_status s).2).2).1 = post at hp ⊢
          have hrw : reads_with_status [Event.generation_status Status.GENERATING,
              Event.read (Expected.value token), Event.generation_status post]
              = [(token, post)] := by
            simp [reads_with_status]
          refine ⟨by simp [delivered, forwarded_reads, hrw, hp], fun token' st hm _ => ?_⟩
          rw [hrw, List.mem_singleton, Prod.mk.injEq] at hm
          obtain ⟨rfl, rfl⟩ := hm
          exact ⟨[Event.generation_status Status.GENERATING], rfl,
            by simp [reads_with_status], rfl⟩
    · rw [pull_loop_terminal B on_token fuel "stop" s k h]
      have hrw : reads_with_status [Event.generation_status (B.generation_status s).1] = [] := by
        simp [reads_with_status]
      refine ⟨by simp [delivered, forwarded_reads, hrw], fun token st hm _ => ?_⟩
      rw [hrw] at hm
      exact absurd hm (List.not_mem_nil _)

theorem configure_sampling_is_setup (params : LLMGeneratorParams) (temperature top_p : float)
    (max_tokens : Int) :
    ∀ x ∈ (configure_sampling params temperature top_p max_tokens).2, x.is_setup = true := by
  unfold configure_sampling
  split_ifs <;> simp [Event.is_setup]

theorem not_read_of_is_setup (x : Event) (h : x.is_setup = true) :
    x.is_read = false ∧ delivered [x] = [] := by
  cases x <;> simp_all [Event.is_setup, Event.is_read, delivered]

theorem all_setup_snoc (l : List Event) (x : Event) (hl : ∀ y ∈ l, y.is_setup = true)
    (hx : x.is_setup = true) : ∀ y ∈ l ++ [x], y.is_setup = true := by
  intro y hy
  rcases List.mem_append.1 hy with h | h
  · exact hl y h
  · rw [List.mem_singleton] at h; rw [h]; exact hx

theorem all_setup_append (l1 l2 : List Event) (h1 : ∀ y ∈ l1, y.is_setup = true)
    (h2 : ∀ y ∈ l2, y.is_setup = true) : ∀ y ∈ l1 ++ l2, y.is_setup = true := by
  intro y hy
  rcases List.mem_append.1 hy with h | h
  · exact h1 y h
  · exact h2 y h

theorem all_setup_singleton (x : Event) (hx : x.is_setup = true) :
    ∀ y ∈ [x], y.is_setup = true := by
  intro y hy
  rw [List.mem_singleton] at hy; rw [hy]; exact hx

theorem generate_streaming_trace {δ σ κ : Type} (B : Backend σ) (e : HailoEngine δ σ)
    (fuel : Nat) (messages_json : List String) (on_token : String → κ → Bool × κ) (k : κ)
    (temperature top_p : float) (max_tokens : Int) :
    ∃ setup : List Event,
      (∀ x ∈ setup, x.is_setup = true) ∧
      ((e.generate_streaming B fuel messages_json on_token k temperature top_p
          max_tokens).trace = setup ∨
        ∃ s5, (e.generate_streaming B fuel messages_json on_token k temperature top_p
          max_tokens).trace = setup ++ (pull_loop B on_token fuel "stop" s5 k).trace) := by
  unfold HailoEngine.generate_streaming
  cases hm : e.m_llm with
  | none => exact ⟨[], by simp, Or.inl rfl⟩
  | some s =>
    simp only []
    have h1 := all_setup_singleton (Event.clear_context (B.clear_context s).1) rfl
    split
    · exact ⟨_, h1, Or.inl rfl⟩
    · have h2 := all_setup_snoc _ (Event.create_generator_params (B.create_generator_params
        (B.clear_context s).2).1) h1 rfl
      split
      · exact ⟨_, h2, Or.inl rfl⟩
      · rename_i params0 _
        have h3 := all_setup_append _ _ h2
          (configure_sampling_is_setup params0 temperature top_p max_tokens)
        have h4 := all_setup_snoc _ (Event.create_generator
          (configure_sampling params0 temperature top_p max_tokens).1
          (B.create_generator (configure_sampling params0 temperature top_p max_tokens).1
            (B.create_generator_params (B.clear_context s).2).2).1) h3 rfl
        split
        · exact ⟨_, h4, Or.inl rfl⟩
        · have h5 := all_setup_snoc _ (Event.write messages_json
            (B.write messages_json (B.create_generator
              (configure_sampling params0 temperature top_p max_tokens).1
              (B.create_generator_params (B.clear_context s).2).2).2).1) h4 rfl
          split
          · exact ⟨_, h5, Or.inl rfl⟩
          · have h6 := all_setup_snoc _ (Event.generate (B.generate
              (B.write messages_json (B.create_generator
                (configure_sampling params0 temperature top_p max_tokens).1
                (B.create_generator_params (B.clear_context s).2).2).2).2).1) h5 rfl
            split
            · exact ⟨_, h6, Or.inl rfl⟩
            · exact ⟨_, h6, Or.inr ⟨_, rfl⟩⟩
/-- C12: in every run of `generate_streaming` (whatever the callback returns
and whether or not a read fails, so in particular when the callback always
returns true and no read fails) the fragments passed to the callback are, in
order, exactly the fragments whose read was followed by the status
`GENERATING`; and a fragment whose read was followed by another status is the
last read of the run, every read before it was followed by `GENERATING`, the
run ends with that status query, and nothing is passed to the callback from
that read on. -/
theorem generate_streaming_delivered_fragments {δ σ κ : Type} (B : Backend σ)
    (e : HailoEngine δ σ) (fuel : Nat) (messages_json : List String)
    (on_token : String → κ → Bool × κ) (c : κ) (temperature top_p : float)
    (max_tokens : Int) :
    delivered (e.generate_streaming B fuel messages_json on_token c temperature top_p
      max_tokens).trace =
      forwarded_reads (e.generate_streaming B fuel messages_json on_token c temperature top_p
        max_tokens).trace ∧
    ∀ token st,
      (token, st) ∈ reads_with_status (e.generate_streaming B fuel messages_json on_token c
        temperature top_p max_tokens).trace →
      st ≠ Status.GENERATING →
      ∃ pre, (e.generate_streaming B fuel messages_json on_token c temperature top_p
          max_tokens).trace =
          pre ++ [Event.read (Expected.value token), Event.generation_status st] ∧
        (∀ r ∈ reads_with_status pre, r.2 = Status.GENERATING) ∧
        delivered (e.generate_streaming B fuel messages_json on_token c temperature top_p
          max_tokens).trace = delivered pre := by
  obtain ⟨setup, hs, htr⟩ := generate_streaming_trace B e fuel messages_json on_token c
    temperature top_p max_tokens
  have hnr : ∀ x ∈ setup, x.is_read = false :=
    fun x hx => (not_read_of_is_setup x (hs x hx)).1
  have hdel : delivered setup = [] :=
    delivered_eq_nil_of_forall setup (fun x hx => (not_read_of_is_setup x (hs x hx)).2)
  have hrs : ∀ l, reads_with_status (setup ++ l) = reads_with_status l :=
    fun l => reads_with_status_append_of_not_read setup l hnr
  rcases htr with htr | ⟨s5, htr⟩
  · rw [htr]
    have h0 : reads_with_status setup = [] := by
      have := hrs []
      rwa [List.append_nil] at this
    refine ⟨by rw [hdel, forwarded_reads, h0]; rfl, fun token st hm _ => ?_⟩
    rw [h0] at hm
    exact absurd hm (List.not_mem_nil _)
  · rw [htr]
    obtain ⟨hd, hterm⟩ := pull_loop_reads B on_token fuel s5 c
    refine ⟨?_, fun token st hm hst => ?_⟩
    · rw [delivered_append, hdel, List.nil_append, hd, forwarded_reads, forwarded_reads, hrs]
    · rw [hrs] at hm
      obtain ⟨pre, hpre, hall, hdp⟩ := hterm token st hm hst
      refine ⟨setup ++ pre, by rw [hpre, List.append_assoc], ?_, ?_⟩
      · intro r hr
        rw [hrs] at hr
        exact hall r hr
      · rw [delivered_append, delivered_append, hdel, hdp]

/-- C12 at a concrete run: the reads give `a`, `b` and a last fragment whose
read ends the generation; `a` and `b` are delivered. -/
theorem generate_streaming_delivered_fragments_witness :
    forwarded_reads (({ HailoEngine.new Unit Script with
        m_llm := some ⟨[.value "a", .value "b", .value "</s>"],
          Status.LOGICAL_END_OF_GENERATION, false⟩ } : HailoEngine Unit Script).generate_streaming
      scripted 5 ["hi"] (fun _ (c : Nat) => (true, c + 1)) 0 float.one float.one
      3).trace = ["a", "b"] ∧
    delivered (({ HailoEngine.new Unit Script with
        m_llm := some ⟨[.value "a", .value "b", .value "</s>"],
          Status.LOGICAL_END_OF_GENERATION, false⟩ } : HailoEngine Unit Script).generate_streaming
      scripted 5 ["hi"] (fun _ (c : Nat) => (true, c + 1)) 0 float.one float.one
      3).trace =
    forwarded_reads (({ HailoEngine.new Unit Script with
        m_llm := some ⟨[.value "a", .value "b", .value "</s>"],
          Status.LOGICAL_END_OF_GENERATION, false⟩ } : HailoEngine Unit Script).generate_streaming
      scripted 5 ["hi"] (fun _ (c : Nat) => (true, c + 1)) 0 float.one float.one
      3).trace :=
  ⟨by decide, (generate_streaming_delivered_fragments scripted _ 5 ["hi"]
    (fun _ (c : Nat) => (true, c + 1)) 0 float.one float.one 3).1⟩

end Hailo
